import Mathlib

/-!
Verification of the whoami-backend room/session logic.

The definitions below are a shallow embedding of the TypeScript source:
  * types from src/types (Room, Player, PlayerAssignment, GameState, GameMode),
  * the pairing algorithm from src/utils/playerPairing.ts,
  * the assignment engine from src/models/GameLogic.ts,
  * the room store from src/models/RoomManager.ts,
  * the socket handlers from src/handlers/roomHandlers.ts and gameHandlers,
  * the cleanup sweep from src/services/cleanupService.ts.

JavaScript `Map<string, T>` objects are embedded as association lists with
insertion-order semantics (`mapGet`, `mapSet`, `mapDelete`); plain objects used
as string-keyed dictionaries (the pairing map) are embedded the same way, and
JS truthiness of a string-valued lookup (`!obj[k]` is true for a missing key
and for the empty string) is modelled explicitly by `truthyStr`.  Randomness
(array shuffles) is modelled by passing the shuffled list as an explicit
argument, constrained to be a permutation of its source in the theorems.
Timers (`setTimeout`/`clearTimeout`) are modelled by a counter of timer ids
plus the list of currently armed, uncancelled, unfired timers; only a live
timer can fire.  Wall-clock fields (`createdAt`) and log output are not
modelled.
-/

/-! ## Data model (src/types) -/

inductive GameState where
  | waiting
  | assigning
  | playing
  | finished
deriving DecidableEq, Repr

inductive GameMode where
  | preset
  | custom
deriving DecidableEq, Repr

inductive PresetCategory where
  | animals
  | celebrities
  | foods
  | movies
  | countries
deriving DecidableEq, Repr

/-- PresetItem from src/types/Preset.ts; the optional difficulty tag is kept
as an optional string since no logic reads it. -/
structure PresetItem where
  id : String
  name : String
  difficulty : Option String := none
deriving DecidableEq, Repr

structure Player where
  id : String
  name : String
  socketId : String
deriving DecidableEq, Repr

structure PlayerAssignment where
  playerId : String
  assignedItem : String
  assignedBy : Option String := none
deriving DecidableEq, Repr

/-- Room from src/types/Room.ts.  The createdAt timestamp is omitted (wall
clock, never read by any of the verified logic). -/
structure Room where
  id : String
  ownerId : String
  players : List Player
  gameMode : GameMode
  presetCategory : Option PresetCategory := none
  gameState : GameState
  assignments : List PlayerAssignment
  pairings : Option (List (String × String)) := none
  roundNumber : Nat
deriving DecidableEq, Repr

/-! ## Association-list embedding of JS Map / plain-object dictionaries -/

/-- Map.get / object indexing: value stored at the first entry with this key. -/
def mapGet (m : List (String × α)) (k : String) : Option α :=
  (m.find? (fun e => e.1 == k)).map Prod.snd

/-- Map.set: replace in place if the key is present (keeping insertion order),
otherwise append at the end. -/
def mapSet (m : List (String × α)) (k : String) (v : α) : List (String × α) :=
  match m with
  | [] => [(k, v)]
  | e :: rest => if e.1 == k then (k, v) :: rest else e :: mapSet rest k v

/-- Map.delete: remove the entry with this key (the first, and with unique
keys the only, occurrence). -/
def mapDelete (m : List (String × α)) (k : String) : List (String × α) :=
  match m with
  | [] => []
  | e :: rest => if e.1 == k then rest else e :: mapDelete rest k

/-! ## Validators (src/utils/validators.ts) -/

/-- Regex test for 6 uppercase alphanumeric characters. -/
def isValidRoomId (roomId : String) : Bool :=
  roomId.length == 6 &&
    roomId.toList.all (fun c => ('A' ≤ c && c ≤ 'Z') || ('0' ≤ c && c ≤ '9'))

def isValidPlayerName (name : String) : Bool :=
  0 < name.trim.length && name.length ≤ 30

def isValidCharacterAssignment (character : String) : Bool :=
  0 < character.trim.length && character.length ≤ 50

/-! ## Pairing algorithm (src/utils/playerPairing.ts) -/

/-- JS object lookup on a pairing dictionary. -/
def lookupVal (ps : List (String × String)) (k : String) : Option String :=
  (ps.find? (fun e => e.1 == k)).map Prod.snd

/-- JS truthiness of an optional string: a missing key and the empty string
are both falsy. -/
def truthyStr : Option String → Bool
  | none => false
  | some s => !(s == "")

/-- The circular-shift loop of generatePlayerPairings: index i maps
shuffled[i] to shuffled[(i+1) mod n]. -/
def cyclicPairings (l : List String) : List (String × String) :=
  (List.range l.length).map (fun i => (l.getD i "", l.getD ((i + 1) % l.length) ""))

/-- generatePlayerPairings.  The shuffle produced by sorting with a random
comparator is passed in as `shuffled`; theorems constrain it to be a
permutation of `playerIds`.  Fewer than 2 ids is the thrown error; exactly 2
ids short-circuits to the mutual swap without shuffling. -/
def generatePlayerPairings (playerIds : List String) (shuffled : List String) :
    Except String (List (String × String)) :=
  match playerIds with
  | [] => .error "Need at least 2 players for pairing"
  | [_] => .error "Need at least 2 players for pairing"
  | [a, b] => .ok [(a, b), (b, a)]
  | _ => .ok (cyclicPairings shuffled)

/-- validatePairings: the five checks of the source, combined with
short-circuit conjunction exactly as the early returns do.  The first check
is the JS `!pairings[id]` test, hence `truthyStr`. -/
def validatePairings (pairings : List (String × String)) (playerIds : List String) : Bool :=
  (playerIds.all (fun id => truthyStr (lookupVal pairings id))) &&
  (pairings.length == playerIds.length) &&
  (pairings.all (fun e => !(e.1 == e.2))) &&
  (pairings.all (fun e => playerIds.contains e.2)) &&
  ((pairings.map Prod.snd).all (fun t => (pairings.map Prod.snd).count t == 1))

/-! ## Assignment engine (src/models/GameLogic.ts, src/utils/randomizer.ts) -/

namespace GameLogic

/-- selectRandomItems: shuffle a copy and take the first `count`.  The
shuffled copy is an explicit argument; the guard mirrors the thrown error. -/
def selectRandomItems (items : List PresetItem) (shuffled : List PresetItem)
    (count : Nat) : Except String (List PresetItem) :=
  if items.length < count then
    .error "Cannot select more items than available"
  else
    .ok (shuffled.take count)

/-- assignPresetItems.  `presets` abstracts getPresetByCategory (the preset
data tables are static content not under verification); `shuffledPool` and
`shuffledPlayers` are the two independent shuffles.  When the guards pass,
the lengths of the selected items and the shuffled players agree, so the
indexed map of the source is the zip below. -/
def assignPresetItems (presets : PresetCategory → List PresetItem) (room : Room)
    (shuffledPool : List PresetItem) (shuffledPlayers : List Player) :
    Except String Room :=
  match room.presetCategory with
  | none => .error "Preset category not set"
  | some cat =>
    let presetItems := presets cat
    if presetItems.length < room.players.length then
      .error "Not enough items for players"
    else
      match selectRandomItems presetItems shuffledPool room.players.length with
      | .error e => .error e
      | .ok selectedItems =>
        .ok { room with assignments :=
          (shuffledPlayers.zip selectedItems).map (fun pi =>
            { playerId := pi.1.id, assignedItem := pi.2.name, assignedBy := none }) }

/-- canAssignItem: pure predicate with the source's early-false conditions in
order.  A present pairing map whose lookup misses rejects, because a string
never equals JS undefined. -/
def canAssignItem (room : Room) (fromPlayerId toPlayerId : String) : Bool :=
  if fromPlayerId == toPlayerId then false
  else if !(room.players.any (fun p => p.id == fromPlayerId)) then false
  else if !(room.players.any (fun p => p.id == toPlayerId)) then false
  else
    let pairingOk :=
      match room.pairings with
      | none => true
      | some ps =>
        match lookupVal ps fromPlayerId with
        | none => false
        | some pairedTarget => toPlayerId == pairedTarget
    if !pairingOk then false
    else if room.assignments.any (fun a => a.playerId == toPlayerId) then false
    else if room.assignments.any (fun a => a.assignedBy == some fromPlayerId) then false
    else true

/-- initializeCustomModePairings: generate, validate, and only then commit
the pairing onto the room. -/
def initializeCustomModePairings (room : Room) (shuffledIds : List String) :
    Except String Room :=
  let playerIds := room.players.map Player.id
  if playerIds.length < 2 then
    .error "Need at least 2 players for custom mode"
  else
    match generatePlayerPairings playerIds shuffledIds with
    | .error e => .error e
    | .ok pairings =>
      if validatePairings pairings playerIds then
        .ok { room with pairings := some pairings }
      else
        .error "Failed to generate valid pairings"

def allPlayersAssigned (room : Room) : Bool :=
  room.assignments.length == room.players.length

def canStartGame (room : Room) : Bool :=
  2 ≤ room.players.length

end GameLogic

/-- One per-player entry of the personalized view. -/
structure PlayerViewEntry where
  id : String
  name : String
  isYou : Bool
  isOwner : Bool
  assignedItem : Option String
deriving DecidableEq, Repr

/-- The personalized view returned by getPlayerView. -/
structure PlayerView where
  roomId : String
  roomCode : String
  gameMode : GameMode
  currentRound : Nat
  gameState : GameState
  pairings : Option (List (String × String))
  players : List PlayerViewEntry
deriving DecidableEq, Repr

namespace GameLogic

/-- getPlayerView: per-viewer projection that blanks the viewer's own
assigned item and labels the viewer and the owner. -/
def getPlayerView (room : Room) (playerId : String) : PlayerView :=
  { roomId := room.id
    roomCode := room.id
    gameMode := room.gameMode
    currentRound := room.roundNumber
    gameState := room.gameState
    pairings := if room.gameMode == .custom then room.pairings else none
    players := room.players.map (fun player =>
      { id := player.id
        name := player.name
        isYou := player.id == playerId
        isOwner := room.ownerId == player.id
        assignedItem :=
          if player.id == playerId then none
          else (room.assignments.find? (fun a => a.playerId == player.id)).map
            PlayerAssignment.assignedItem }) }

end GameLogic

/-! ## Room store (src/models/RoomManager.ts) -/

namespace RoomManager

/-- createRoom: the freshly generated unique code is passed in as `roomId`
(generateRoomId is random; uniqueness is a hypothesis where needed).  The
one initial player is the owner with an empty connection handle. -/
def createRoom (rooms : List (String × Room)) (roomId ownerId ownerName : String)
    (gameMode : GameMode) (presetCategory : Option PresetCategory) :
    List (String × Room) × Room :=
  let room : Room :=
    { id := roomId
      ownerId := ownerId
      players := [{ id := ownerId, name := ownerName, socketId := "" }]
      gameMode := gameMode
      presetCategory := presetCategory
      gameState := .waiting
      assignments := []
      pairings := none
      roundNumber := 1 }
  (mapSet rooms roomId room, room)

/-- addPlayer: fails when the room is missing or the player id is already
present, else appends the player. -/
def addPlayer (rooms : List (String × Room)) (roomId : String) (player : Player) :
    Except String (List (String × Room)) :=
  match mapGet rooms roomId with
  | none => .error "Room not found"
  | some room =>
    if room.players.any (fun p => p.id == player.id) then
      .error "Player already in room"
    else
      .ok (mapSet rooms roomId { room with players := room.players ++ [player] })

/-- removePlayer: splice out the first player with this id, transfer
ownership to the first remaining player when the owner left, and delete the
room when it became empty. -/
def removePlayer (rooms : List (String × Room)) (roomId playerId : String) :
    Except String (List (String × Room)) :=
  match mapGet rooms roomId with
  | none => .error "Room not found"
  | some room =>
    match room.players.findIdx? (fun p => p.id == playerId) with
    | none => .error "Player not in room"
    | some idx =>
      let players' := room.players.eraseIdx idx
      match players' with
      | [] => .ok (mapDelete rooms roomId)
      | p0 :: _ =>
        let ownerId' := if room.ownerId == playerId then p0.id else room.ownerId
        .ok (mapSet rooms roomId { room with players := players', ownerId := ownerId' })

end RoomManager

/-! ## Session reconciler state (src/handlers/roomHandlers.ts) -/

/-- One entry of the pendingDisconnects table; `timeout` is the id of the
armed grace-period timer. -/
structure PendingDisconnect where
  roomId : String
  playerId : String
  timeout : Nat
deriving DecidableEq, Repr

/-- Whole-process state: the room table, the pending-disconnect table, the
set of armed-and-uncancelled timers (a timer leaves this list when cleared or
when it fires), and the id counter standing in for setTimeout handles. -/
structure World where
  rooms : List (String × Room)
  pending : List (String × PendingDisconnect)
  liveTimers : List Nat
  nextTimer : Nat
deriving DecidableEq, Repr

def World.init : World := { rooms := [], pending := [], liveTimers := [], nextTimer := 0 }

def MAX_PENDING_DISCONNECTS : Nat := 1000

def MAX_PLAYERS : Nat := 20

/-- clearTimeout on a timer id. -/
def clearTimer (w : World) (t : Nat) : World :=
  { w with liveTimers := w.liveTimers.filter (fun t' => !(t' == t)) }

/-- addPendingDisconnect: when the bounded table is full, evict the oldest
entry (the first in insertion order) and cancel its timer, then store the new
entry under the dropped connection's socket id. -/
def addPendingDisconnect (w : World) (sockId : String) (pd : PendingDisconnect) : World :=
  let w1 :=
    if MAX_PENDING_DISCONNECTS ≤ w.pending.length then
      match w.pending with
      | [] => w
      | (firstKey, oldEntry) :: _ =>
        let w' := clearTimer w oldEntry.timeout
        { w' with pending := mapDelete w'.pending firstKey }
    else w
  { w1 with pending := mapSet w1.pending sockId pd }

/-! ## Socket handlers.  Each handler returns the successor world; every
error path emits to the socket and leaves the state unchanged, so it is
modelled as the identity.  Broadcasts carry no state and are dropped, except
the game-started view resent on rejoin, which the rejoin handler returns. -/

/-- create-room handler.  The fresh player id (randomUUID) and the fresh room
code (generateRoomId) are arguments; the handler then binds the creator's
socket onto the stored room's first player. -/
def createRoomHandler (w : World) (sockId playerId playerName roomId : String)
    (gameMode : GameMode) (presetCategory : Option PresetCategory) : World :=
  if isValidPlayerName playerName = false then w
  else if gameMode == .preset && presetCategory.isNone then w
  else
    let created := RoomManager.createRoom w.rooms roomId playerId playerName gameMode presetCategory
    let room := created.2
    let room' := { room with players := room.players.map (fun p =>
      if p.id == playerId then { p with socketId := sockId } else p) }
    { w with rooms := mapSet created.1 roomId room' }

/-- join-room handler: validations, waiting-state gate, MAX_PLAYERS gate,
then addPlayer with a fresh player id. -/
def joinRoomHandler (w : World) (sockId roomId playerName playerId : String) : World :=
  if isValidRoomId roomId = false then w
  else if isValidPlayerName playerName = false then w
  else
    match mapGet w.rooms roomId with
    | none => w
    | some room =>
      if !(room.gameState == .waiting) then w
      else if MAX_PLAYERS ≤ room.players.length then w
      else
        match RoomManager.addPlayer w.rooms roomId
            { id := playerId, name := playerName, socketId := sockId } with
        | .error _ => w
        | .ok rooms' => { w with rooms := rooms' }

/-- Result of the rejoin handler: the successor world plus the game-started
personalized view resent to the rejoining socket (absent when the room is
still waiting or on any error path). -/
structure RejoinResult where
  world : World
  resentView : Option PlayerView
deriving Repr

/-- rejoin-room handler: rebind the player's socket, and when the old socket
id owns a pending-disconnect entry, clear its timer and drop the entry; when
the game is past waiting, resend the personalized view. -/
def rejoinRoomHandler (w : World) (sockId roomId playerId : String) : RejoinResult :=
  if isValidRoomId roomId = false then ⟨w, none⟩
  else
    match mapGet w.rooms roomId with
    | none => ⟨w, none⟩
    | some room =>
      match room.players.findIdx? (fun p => p.id == playerId) with
      | none => ⟨w, none⟩
      | some idx =>
        let player := room.players.getD idx { id := "", name := "", socketId := "" }
        let oldSocketId := player.socketId
        let players' := room.players.set idx { player with socketId := sockId }
        let room' := { room with players := players' }
        let w1 := { w with rooms := mapSet w.rooms roomId room' }
        let w2 :=
          if oldSocketId == "" then w1
          else
            match mapGet w1.pending oldSocketId with
            | none => w1
            | some pd =>
              let w' := clearTimer w1 pd.timeout
              { w' with pending := mapDelete w'.pending oldSocketId }
        let resent :=
          if room'.gameState == .waiting then none
          else some (GameLogic.getPlayerView room' playerId)
        ⟨w2, resent⟩

/-- removePlayer wrapped the way the handlers use it: errors are caught and
leave the world unchanged. -/
def removePlayerCaught (w : World) (roomId playerId : String) : World :=
  match RoomManager.removePlayer w.rooms roomId playerId with
  | .error _ => w
  | .ok rooms' => { w with rooms := rooms' }

/-- leave-room handler, including the force-finish when leaving during the
assigning phase. -/
def leaveRoomHandler (w : World) (sockId roomId : String) : World :=
  if isValidRoomId roomId = false then w
  else
    match mapGet w.rooms roomId with
    | none => w
    | some room =>
      match room.players.find? (fun p => p.socketId == sockId) with
      | none => w
      | some player =>
        if room.gameState == .assigning then
          let w1 := removePlayerCaught w roomId player.id
          match mapGet w1.rooms room.id with
          | none => w1
          | some r1 =>
            { w1 with rooms := mapSet w1.rooms room.id { r1 with gameState := .finished } }
        else
          removePlayerCaught w roomId player.id

/-- The body of the disconnect handler's per-room loop.  `room` is the
snapshot element produced by getAllRooms; no two iterations touch the same
room, so the snapshot room equals the stored one when its turn comes. -/
def disconnectRoomStep (w : World) (sockId : String) (room : Room) : World :=
  match room.players.find? (fun p => p.socketId == sockId) with
  | none => w
  | some player =>
    match room.gameState with
    | .assigning =>
      let w1 := removePlayerCaught w room.id player.id
      match mapGet w1.rooms room.id with
      | none => w1
      | some r1 =>
        { w1 with rooms := mapSet w1.rooms room.id { r1 with gameState := .finished } }
    | .waiting | .playing =>
      let t := w.nextTimer
      let w1 := { w with nextTimer := w.nextTimer + 1, liveTimers := w.liveTimers ++ [t] }
      addPendingDisconnect w1 sockId { roomId := room.id, playerId := player.id, timeout := t }
    | .finished =>
      removePlayerCaught w room.id player.id

/-- disconnect handler: iterate the per-room step over a snapshot of all
rooms. -/
def disconnectHandler (w : World) (sockId : String) : World :=
  (w.rooms.map Prod.snd).foldl (fun acc room => disconnectRoomStep acc sockId room) w

/-- The grace-period setTimeout callback, with the values it captured at arm
time.  Firing consumes the timer (it leaves the live list), re-checks the
room and player at fire time, removes the player through the standard
removal path only when both still exist, and always drops the table entry
keyed by the old socket id. -/
def fireTimerCallback (w : World) (roomId playerId sockId : String) (timerId : Nat) : World :=
  let w0 := clearTimer w timerId
  let w1 :=
    match mapGet w0.rooms roomId with
    | none => w0
    | some room =>
      if room.players.any (fun p => p.id == playerId) then
        removePlayerCaught w0 roomId playerId
      else w0
  { w1 with pending := mapDelete w1.pending sockId }

/-- checkAndClearPending, run on every new connection: drop (and cancel the
timer of) every pending entry whose room or player no longer exists. -/
def pendingEntryDead (w : World) (pd : PendingDisconnect) : Bool :=
  match mapGet w.rooms pd.roomId with
  | none => true
  | some room => !(room.players.any (fun p => p.id == pd.playerId))

def checkAndClearPending (w : World) : World :=
  { w with
    pending := w.pending.filter (fun e => !(pendingEntryDead w e.2))
    liveTimers := w.liveTimers.filter (fun t =>
      !(w.pending.any (fun e => pendingEntryDead w e.2 && e.2.timeout == t))) }

/-! ## Game handlers (gameHandlers.ts) -/

/-- start-game handler (the listing that initializes custom-mode pairings
before entering the assigning phase).  The three shuffle arguments model the
randomness of preset item selection, preset player order, and the pairing
shuffle respectively. -/
def startGameHandler (presets : PresetCategory → List PresetItem) (w : World)
    (sockId roomId : String) (shuffledPool : List PresetItem)
    (shuffledPlayers : List Player) (shuffledIds : List String) : World :=
  if isValidRoomId roomId = false then w
  else
    match mapGet w.rooms roomId with
    | none => w
    | some room =>
      match room.players.find? (fun p => p.socketId == sockId) with
      | none => w
      | some player =>
        if !(room.ownerId == player.id) then w
        else if GameLogic.canStartGame room = false then w
        else
          match room.gameMode with
          | .preset =>
            match GameLogic.assignPresetItems presets room shuffledPool shuffledPlayers with
            | .error _ => w
            | .ok room1 =>
              { w with rooms := mapSet w.rooms roomId { room1 with gameState := .playing } }
          | .custom =>
            match GameLogic.initializeCustomModePairings room shuffledIds with
            | .error _ => w
            | .ok room1 =>
              { w with rooms := mapSet w.rooms roomId { room1 with gameState := .assigning } }

/-- assign-character handler, including the automatic transition to playing
the moment every player is assigned. -/
def assignCharacterHandler (w : World) (sockId roomId targetPlayerId character : String) : World :=
  if isValidRoomId roomId = false then w
  else if isValidCharacterAssignment character = false then w
  else
    match mapGet w.rooms roomId with
    | none => w
    | some room =>
      if !(room.gameMode == .custom) then w
      else
        match room.players.find? (fun p => p.socketId == sockId) with
        | none => w
        | some assigningPlayer =>
          if GameLogic.canAssignItem room assigningPlayer.id targetPlayerId = false then w
          else
            let room1 := { room with assignments := room.assignments ++
              [{ playerId := targetPlayerId, assignedItem := character,
                 assignedBy := some assigningPlayer.id }] }
            let w1 := { w with rooms := mapSet w.rooms roomId room1 }
            if GameLogic.allPlayersAssigned room1 then
              { w1 with rooms := mapSet w1.rooms roomId { room1 with gameState := .playing } }
            else w1

/-- end-round handler: requires the state to be exactly playing. -/
def endRoundHandler (w : World) (roomId : String) : World :=
  if isValidRoomId roomId = false then w
  else
    match mapGet w.rooms roomId with
    | none => w
    | some room =>
      if !(room.gameState == .playing) then w
      else { w with rooms := mapSet w.rooms roomId { room with gameState := .finished } }

/-- start-new-round handler: owner gate, then reset round counter,
assignments and state.  The source performs no game-state check and does not
touch the stored pairings. -/
def startNewRoundHandler (w : World) (sockId roomId : String) : World :=
  if isValidRoomId roomId = false then w
  else
    match mapGet w.rooms roomId with
    | none => w
    | some room =>
      match room.players.find? (fun p => p.socketId == sockId) with
      | none => w
      | some player =>
        if !(room.ownerId == player.id) then w
        else
          let room' := { room with roundNumber := room.roundNumber + 1,
                                   assignments := ([] : List PlayerAssignment),
                                   gameState := GameState.waiting }
          { w with rooms := mapSet w.rooms roomId room' }

/-- The periodic empty-room sweep of cleanupService.ts. -/
def cleanupSweep (w : World) : World :=
  { w with rooms := w.rooms.filter (fun e => !(e.2.players.isEmpty)) }

/-! ## The system transition relation.

One step is one of the socket event handlers, a grace-period timer firing,
the per-connection pending sweep, or the periodic cleanup sweep.  Fresh
random identities (room codes, player uuids) and shuffle outcomes appear as
constructor arguments constrained by side conditions. -/

inductive Step : World → World → Prop
  | createRoom (w : World) (sockId playerId playerName roomId : String)
      (gameMode : GameMode) (presetCategory : Option PresetCategory)
      (hfresh : mapGet w.rooms roomId = none)
      (hvalid : isValidRoomId roomId = true)
      (huuid : ∀ e ∈ w.rooms, ∀ p ∈ e.2.players, p.id ≠ playerId) :
      Step w (createRoomHandler w sockId playerId playerName roomId gameMode presetCategory)
  | joinRoom (w : World) (sockId roomId playerName playerId : String)
      (huuid : ∀ e ∈ w.rooms, ∀ p ∈ e.2.players, p.id ≠ playerId) :
      Step w (joinRoomHandler w sockId roomId playerName playerId)
  | rejoinRoom (w : World) (sockId roomId playerId : String) :
      Step w (rejoinRoomHandler w sockId roomId playerId).world
  | leaveRoom (w : World) (sockId roomId : String) :
      Step w (leaveRoomHandler w sockId roomId)
  | disconnect (w : World) (sockId : String) :
      Step w (disconnectHandler w sockId)
  | timerFire (w : World) (sockKey : String) (pd : PendingDisconnect)
      (hpend : mapGet w.pending sockKey = some pd)
      (hlive : pd.timeout ∈ w.liveTimers) :
      Step w (fireTimerCallback w pd.roomId pd.playerId sockKey pd.timeout)
  | connectSweep (w : World) :
      Step w (checkAndClearPending w)
  | startGame (presets : PresetCategory → List PresetItem) (w : World)
      (sockId roomId : String) (shuffledPool : List PresetItem)
      (shuffledPlayers : List Player) (shuffledIds : List String)
      (hpool : ∀ room cat, mapGet w.rooms roomId = some room →
        room.presetCategory = some cat → shuffledPool.Perm (presets cat))
      (hplayers : ∀ room, mapGet w.rooms roomId = some room →
        shuffledPlayers.Perm room.players)
      (hids : ∀ room, mapGet w.rooms roomId = some room →
        shuffledIds.Perm (room.players.map Player.id)) :
      Step w (startGameHandler presets w sockId roomId shuffledPool shuffledPlayers shuffledIds)
  | assignCharacter (w : World) (sockId roomId targetPlayerId character : String) :
      Step w (assignCharacterHandler w sockId roomId targetPlayerId character)
  | endRound (w : World) (roomId : String) :
      Step w (endRoundHandler w roomId)
  | startNewRound (w : World) (sockId roomId : String) :
      Step w (startNewRoundHandler w sockId roomId)
  | cleanup (w : World) :
      Step w (cleanupSweep w)

/-- Worlds reachable from the empty initial state. -/
def Reachable (w : World) : Prop :=
  Relation.ReflTransGen Step World.init w

/-! ## Helper lemmas: association lists -/

theorem mapGet_mapSet_self (m : List (String × α)) (k : String) (v : α) :
    mapGet (mapSet m k v) k = some v := by
  induction m with
  | nil => simp [mapGet, mapSet, List.find?]
  | cons e rest ih =>
    by_cases h : e.1 == k
    · simp [mapSet, h, mapGet, List.find?]
    · simp only [mapSet, h, if_false, Bool.false_eq_true]
      simpa [mapGet, List.find?, h] using ih

theorem mapGet_mapDelete_self (m : List (String × α)) (k : String)
    (hnd : (m.map Prod.fst).Nodup) : mapGet (mapDelete m k) k = none := by
  induction m with
  | nil => simp [mapGet, mapDelete]
  | cons e rest ih =>
    simp only [List.map_cons, List.nodup_cons] at hnd
    by_cases h : e.1 == k
    · rw [beq_iff_eq] at h
      subst h
      have hdel : mapDelete (e :: rest) e.1 = rest := by simp [mapDelete]
      have hnone : List.find? (fun x => x.1 == e.1) rest = none := by
        rw [List.find?_eq_none]
        intro x hx
        simp only [beq_iff_eq]
        intro hk
        exact hnd.1 (hk ▸ List.mem_map_of_mem Prod.fst hx)
      rw [hdel, mapGet, hnone]
      rfl
    · have hfalse : (e.1 == k) = false := by simpa using h
      have hdel : mapDelete (e :: rest) k = e :: mapDelete rest k := by
        simp [mapDelete, hfalse]
      rw [hdel, mapGet, List.find?_cons_of_neg]
      · exact ih hnd.2
      · simp [hfalse]

theorem mapGet_mapDelete_ne (m : List (String × α)) (k k' : String) (h : ¬(k' = k)) :
    mapGet (mapDelete m k) k' = mapGet m k' := by
  induction m with
  | nil => simp [mapGet, mapDelete]
  | cons e rest ih =>
    by_cases he : e.1 == k
    · simp only [mapDelete, he, if_true, mapGet, List.find?]
      rw [beq_iff_eq] at he
      have : (e.1 == k') = false := by
        simp only [beq_eq_false_iff_ne, ne_eq, he]
        intro hk; exact h hk.symm
      simp [mapGet, List.find?, this]
    · simp only [mapDelete, he, if_false, Bool.false_eq_true, mapGet, List.find?]
      cases hc : (e.1 == k') with
      | true => rfl
      | false => exact ih

theorem mem_of_mem_mapDelete {m : List (String × α)} {k : String} {e : String × α}
    (h : e ∈ mapDelete m k) : e ∈ m := by
  induction m with
  | nil => simp [mapDelete] at h
  | cons e' rest ih =>
    by_cases he : e'.1 == k
    · simp only [mapDelete, he, if_true] at h
      exact List.mem_cons_of_mem _ h
    · simp only [mapDelete, he, if_false, Bool.false_eq_true, List.mem_cons] at h
      rcases h with h | h
      · exact h ▸ List.mem_cons_self _ _
      · exact List.mem_cons_of_mem _ (ih h)

theorem mem_of_mem_mapSet {m : List (String × α)} {k : String} {v : α} {e : String × α}
    (h : e ∈ mapSet m k v) : e ∈ m ∨ e = (k, v) := by
  induction m with
  | nil =>
    simp only [mapSet, List.mem_singleton] at h
    exact Or.inr h
  | cons e' rest ih =>
    by_cases he : e'.1 == k
    · simp only [mapSet, he, if_true, List.mem_cons] at h
      rcases h with h | h
      · exact Or.inr h
      · exact Or.inl (List.mem_cons_of_mem _ h)
    · simp only [mapSet, he, Bool.false_eq_true, if_false, List.mem_cons] at h
      rcases h with h | h
      · exact Or.inl (h ▸ List.mem_cons_self _ _)
      · rcases ih h with h' | h'
        · exact Or.inl (List.mem_cons_of_mem _ h')
        · exact Or.inr h'

/-! ## Helper lemmas: the player-count bound -/

/-- Every room of the table holds at most MAX_PLAYERS players. -/
def roomsOK (m : List (String × Room)) : Prop :=
  ∀ e ∈ m, e.2.players.length ≤ MAX_PLAYERS

theorem roomsOK_mapSet {m : List (String × Room)} {k : String} {r : Room}
    (h : roomsOK m) (hr : r.players.length ≤ MAX_PLAYERS) : roomsOK (mapSet m k r) := by
  intro e he
  rcases mem_of_mem_mapSet he with h' | h'
  · exact h e h'
  · rw [h']
    exact hr

theorem roomsOK_mapDelete {m : List (String × Room)} {k : String}
    (h : roomsOK m) : roomsOK (mapDelete m k) :=
  fun e he => h e (mem_of_mem_mapDelete he)

theorem roomsOK_filter {m : List (String × Room)} {p : String × Room → Bool}
    (h : roomsOK m) : roomsOK (m.filter p) :=
  fun e he => h e (List.mem_filter.mp he).1

theorem roomsOK_get {m : List (String × Room)} {k : String} {r : Room}
    (h : roomsOK m) (hg : mapGet m k = some r) :
    r.players.length ≤ MAX_PLAYERS := by
  unfold mapGet at hg
  cases hf : m.find? (fun e => e.1 == k) with
  | none => rw [hf] at hg; simp at hg
  | some e =>
    rw [hf] at hg
    simp only [Option.map_some', Option.some.injEq] at hg
    exact hg ▸ h e (List.mem_of_find?_eq_some hf)

theorem eraseIdx_length_le (l : List α) (i : Nat) : (l.eraseIdx i).length ≤ l.length := by
  rw [List.length_eraseIdx]
  split <;> omega

theorem roomsOK_removePlayer {m m' : List (String × Room)} {rid pid : String}
    (h : roomsOK m) (hok : RoomManager.removePlayer m rid pid = .ok m') : roomsOK m' := by
  unfold RoomManager.removePlayer at hok
  cases hg : mapGet m rid with
  | none => rw [hg] at hok; exact absurd hok (by simp)
  | some room =>
    rw [hg] at hok
    simp only [] at hok
    cases hi : room.players.findIdx? (fun p => p.id == pid) with
    | none => rw [hi] at hok; exact absurd hok (by simp)
    | some idx =>
      rw [hi] at hok
      simp only [] at hok
      have hlen : (room.players.eraseIdx idx).length ≤ MAX_PLAYERS :=
        calc (room.players.eraseIdx idx).length
            ≤ room.players.length := eraseIdx_length_le _ _
          _ ≤ MAX_PLAYERS := roomsOK_get h hg
      cases he : room.players.eraseIdx idx with
      | nil =>
        rw [he] at hok
        simp only [] at hok
        cases hok
        exact roomsOK_mapDelete h
      | cons p0 tail =>
        rw [he] at hok
        simp only [] at hok
        have hlen2 : (p0 :: tail).length ≤ MAX_PLAYERS := by
          rw [← he]
          exact hlen
        split at hok <;>
        · cases hok
          refine roomsOK_mapSet h ?_
          simpa using hlen2

theorem roomsOK_removePlayerCaught {w : World} {rid pid : String}
    (h : roomsOK w.rooms) : roomsOK (removePlayerCaught w rid pid).rooms := by
  unfold removePlayerCaught
  split
  · exact h
  next m' heq => exact roomsOK_removePlayer h heq

theorem clearTimer_rooms (w : World) (t : Nat) : (clearTimer w t).rooms = w.rooms := rfl

theorem addPendingDisconnect_rooms (w : World) (s : String) (pd : PendingDisconnect) :
    (addPendingDisconnect w s pd).rooms = w.rooms := by
  unfold addPendingDisconnect
  split
  · split <;> rfl
  · rfl

theorem roomsOK_disconnectRoomStep {w : World} {s : String} {room : Room}
    (h : roomsOK w.rooms) : roomsOK (disconnectRoomStep w s room).rooms := by
  unfold disconnectRoomStep
  split
  · exact h
  next player hfind =>
    split
    · -- assigning: remove, then force-finish when the room survived
      simp only []
      split
      · exact roomsOK_removePlayerCaught h
      next r1 heq =>
        refine roomsOK_mapSet (roomsOK_removePlayerCaught h) ?_
        simpa using roomsOK_get (roomsOK_removePlayerCaught h) heq
    · -- waiting: only timers and the pending table change
      simp only []
      rw [addPendingDisconnect_rooms]
      exact h
    · -- playing: only timers and the pending table change
      simp only []
      rw [addPendingDisconnect_rooms]
      exact h
    · -- finished: immediate removal
      exact roomsOK_removePlayerCaught h

theorem roomsOK_foldl {f : World → Room → World}
    (hf : ∀ w r, roomsOK w.rooms → roomsOK (f w r).rooms) :
    ∀ (l : List Room) (w : World), roomsOK w.rooms → roomsOK (List.foldl f w l).rooms := by
  intro l
  induction l with
  | nil => intro w h; exact h
  | cons r rest ih => intro w h; exact ih _ (hf w r h)

theorem roomsOK_disconnectHandler {w : World} {s : String}
    (h : roomsOK w.rooms) : roomsOK (disconnectHandler w s).rooms := by
  unfold disconnectHandler
  exact roomsOK_foldl (fun w' r h' => roomsOK_disconnectRoomStep h') _ _ h

theorem roomsOK_fireTimerCallback {w : World} {rid pid sid : String} {t : Nat}
    (h : roomsOK w.rooms) : roomsOK (fireTimerCallback w rid pid sid t).rooms := by
  unfold fireTimerCallback
  simp only []
  split
  · exact h
  next room heq =>
    split
    · exact roomsOK_removePlayerCaught h
    · exact h

theorem assignPresetItems_players {presets : PresetCategory → List PresetItem}
    {room room1 : Room} {a : List PresetItem} {b : List Player}
    (h : GameLogic.assignPresetItems presets room a b = .ok room1) :
    room1.players = room.players := by
  unfold GameLogic.assignPresetItems GameLogic.selectRandomItems at h
  split at h
  · exact absurd h (by simp)
  · simp only [] at h
    split at h
    · exact absurd h (by simp)
    next hc =>
      simp only [] at h
      cases h
      rfl

theorem initializeCustomModePairings_players {room room1 : Room} {ids : List String}
    (h : GameLogic.initializeCustomModePairings room ids = .ok room1) :
    room1.players = room.players := by
  unfold GameLogic.initializeCustomModePairings at h
  simp only [] at h
  split at h
  · exact absurd h (by simp)
  · split at h
    · exact absurd h (by simp)
    next ps heq =>
      split at h
      · cases h
        rfl
      · exact absurd h (by simp)

theorem roomsOK_createRoomHandler {w : World} {sockId playerId playerName roomId : String}
    {gm : GameMode} {pc : Option PresetCategory} (h : roomsOK w.rooms) :
    roomsOK (createRoomHandler w sockId playerId playerName roomId gm pc).rooms := by
  unfold createRoomHandler RoomManager.createRoom
  split
  · exact h
  split
  · exact h
  · simp only []
    refine roomsOK_mapSet (roomsOK_mapSet h ?_) ?_
    · simp [MAX_PLAYERS]
    · simp [MAX_PLAYERS]

theorem roomsOK_joinRoomHandler {w : World} {sockId roomId playerName playerId : String}
    (h : roomsOK w.rooms) :
    roomsOK (joinRoomHandler w sockId roomId playerName playerId).rooms := by
  unfold joinRoomHandler
  split
  · exact h
  split
  · exact h
  split
  · exact h
  next room heq =>
    split
    · exact h
    split
    · exact h
    next hcap =>
      unfold RoomManager.addPlayer
      rw [heq]
      simp only []
      split
      · exact h
      next rooms' heq2 =>
        split at heq2
        · exact absurd heq2 (by simp)
        · cases heq2
          refine roomsOK_mapSet h ?_
          simp only [List.length_append, List.length_singleton]
          omega

theorem roomsOK_rejoinRoomHandler {w : World} {sockId roomId playerId : String}
    (h : roomsOK w.rooms) :
    roomsOK (rejoinRoomHandler w sockId roomId playerId).world.rooms := by
  unfold rejoinRoomHandler
  split
  · exact h
  split
  · exact h
  next room heq =>
    split
    · exact h
    next idx hidx =>
      simp only []
      have hset : ∀ p : Player,
          roomsOK (mapSet w.rooms roomId { room with players := room.players.set idx p }) := by
        intro p
        refine roomsOK_mapSet h ?_
        simpa [List.length_set] using roomsOK_get h heq
      split
      · exact hset _
      · split
        · exact hset _
        · exact hset _

theorem roomsOK_leaveRoomHandler {w : World} {sockId roomId : String}
    (h : roomsOK w.rooms) : roomsOK (leaveRoomHandler w sockId roomId).rooms := by
  unfold leaveRoomHandler
  split
  · exact h
  split
  · exact h
  next room heq =>
    split
    · exact h
    next player hfind =>
      split
      · simp only []
        split
        · exact roomsOK_removePlayerCaught h
        next r1 heq1 =>
          refine roomsOK_mapSet (roomsOK_removePlayerCaught h) ?_
          simpa using roomsOK_get (roomsOK_removePlayerCaught h) heq1
      · exact roomsOK_removePlayerCaught h

theorem roomsOK_checkAndClearPending {w : World} (h : roomsOK w.rooms) :
    roomsOK (checkAndClearPending w).rooms := h

theorem roomsOK_startGameHandler {presets : PresetCategory → List PresetItem}
    {w : World} {sockId roomId : String} {sp : List PresetItem} {spl : List Player}
    {sid : List String} (h : roomsOK w.rooms) :
    roomsOK (startGameHandler presets w sockId roomId sp spl sid).rooms := by
  unfold startGameHandler
  split
  · exact h
  split
  · exact h
  next room heq =>
    split
    · exact h
    next player hfind =>
      split
      · exact h
      split
      · exact h
      split
      · -- preset mode
        split
        · exact h
        next room1 hassign =>
          refine roomsOK_mapSet h ?_
          have hp := assignPresetItems_players hassign
          simp only [hp]
          exact roomsOK_get h heq
      · -- custom mode
        split
        · exact h
        next room1 hinit =>
          refine roomsOK_mapSet h ?_
          have hp := initializeCustomModePairings_players hinit
          simp only [hp]
          exact roomsOK_get h heq

theorem roomsOK_assignCharacterHandler {w : World} {sockId roomId tgt ch : String}
    (h : roomsOK w.rooms) :
    roomsOK (assignCharacterHandler w sockId roomId tgt ch).rooms := by
  unfold assignCharacterHandler
  split
  · exact h
  split
  · exact h
  split
  · exact h
  next room heq =>
    split
    · exact h
    split
    · exact h
    next player hfind =>
      split
      · exact h
      · simp only []
        have hbound : room.players.length ≤ MAX_PLAYERS := roomsOK_get h heq
        have h1 : roomsOK (mapSet w.rooms roomId
            { room with assignments := room.assignments ++
              [{ playerId := tgt, assignedItem := ch, assignedBy := some player.id }] }) :=
          roomsOK_mapSet h (by simpa using hbound)
        split
        · exact roomsOK_mapSet h1 (by simpa using hbound)
        · exact h1

theorem roomsOK_endRoundHandler {w : World} {roomId : String}
    (h : roomsOK w.rooms) : roomsOK (endRoundHandler w roomId).rooms := by
  unfold endRoundHandler
  split
  · exact h
  split
  · exact h
  next room heq =>
    split
    · exact h
    · refine roomsOK_mapSet h ?_
      simpa using roomsOK_get h heq

theorem roomsOK_startNewRoundHandler {w : World} {sockId roomId : String}
    (h : roomsOK w.rooms) : roomsOK (startNewRoundHandler w sockId roomId).rooms := by
  unfold startNewRoundHandler
  split
  · exact h
  split
  · exact h
  next room heq =>
    split
    · exact h
    next player hfind =>
      split
      · exact h
      · simp only []
        refine roomsOK_mapSet h ?_
        simpa using roomsOK_get h heq

theorem roomsOK_cleanupSweep {w : World} (h : roomsOK w.rooms) :
    roomsOK (cleanupSweep w).rooms := by
  unfold cleanupSweep
  exact roomsOK_filter h

theorem roomsOK_step {w w' : World} (hs : Step w w') (h : roomsOK w.rooms) :
    roomsOK w'.rooms := by
  cases hs with
  | createRoom w sockId playerId playerName roomId gm pc hfresh hvalid huuid =>
    exact roomsOK_createRoomHandler h
  | joinRoom w sockId roomId playerName playerId huuid =>
    exact roomsOK_joinRoomHandler h
  | rejoinRoom w sockId roomId playerId =>
    exact roomsOK_rejoinRoomHandler h
  | leaveRoom w sockId roomId =>
    exact roomsOK_leaveRoomHandler h
  | disconnect w sockId =>
    exact roomsOK_disconnectHandler h
  | timerFire w sockKey pd hpend hlive =>
    exact roomsOK_fireTimerCallback h
  | connectSweep w =>
    exact roomsOK_checkAndClearPending h
  | startGame presets w sockId roomId sp spl sid hpool hplayers hids =>
    exact roomsOK_startGameHandler h
  | assignCharacter w sockId roomId tgt ch =>
    exact roomsOK_assignCharacterHandler h
  | endRound w roomId =>
    exact roomsOK_endRoundHandler h
  | startNewRound w sockId roomId =>
    exact roomsOK_startNewRoundHandler h
  | cleanup w =>
    exact roomsOK_cleanupSweep h

theorem roomsOK_reachable {w : World} (h : Reachable w) : roomsOK w.rooms := by
  unfold Reachable at h
  induction h with
  | refl => intro e he; simp [World.init] at he
  | tail hab hbc ih => exact roomsOK_step hbc ih

/-! ## Helper lemmas: finding players and assignments -/

theorem find?_assignment_unique {l : List PlayerAssignment} {a : PlayerAssignment}
    (hnd : (l.map PlayerAssignment.playerId).Nodup) (ha : a ∈ l) :
    l.find? (fun x => x.playerId == a.playerId) = some a := by
  induction l with
  | nil => cases ha
  | cons b rest ih =>
    simp only [List.map_cons, List.nodup_cons] at hnd
    rcases List.mem_cons.mp ha with h | h
    · subst h
      exact List.find?_cons_of_pos _ (by simp)
    · by_cases hb : b.playerId == a.playerId
      · rw [beq_iff_eq] at hb
        exact absurd (hb ▸ List.mem_map_of_mem PlayerAssignment.playerId h) hnd.1
      · rw [@List.find?_cons_of_neg _ (fun x => x.playerId == a.playerId) b rest hb]
        exact ih hnd.2 h

theorem findIdx?_isSome_of_mem {l : List Player} {pid : String}
    (hmem : pid ∈ l.map Player.id) :
    ∃ idx, l.findIdx? (fun p => p.id == pid) = some idx := by
  cases h : l.findIdx? (fun p => p.id == pid) with
  | some idx => exact ⟨idx, rfl⟩
  | none =>
    rw [List.findIdx?_eq_none_iff] at h
    obtain ⟨p, hp, hpid⟩ := List.mem_map.mp hmem
    have hfalse := h p hp
    simp [hpid] at hfalse

/-- Under distinct player ids, splicing out the first player matching an id
is the same as filtering that id out. -/
theorem eraseIdx_findIdx?_eq_filter {l : List Player} {pid : String} {idx : Nat}
    (hnd : (l.map Player.id).Nodup)
    (hidx : l.findIdx? (fun p => p.id == pid) = some idx) :
    l.eraseIdx idx = l.filter (fun p => !(p.id == pid)) := by
  induction l generalizing idx with
  | nil => simp at hidx
  | cons b rest ih =>
    simp only [List.map_cons, List.nodup_cons] at hnd
    rw [List.findIdx?_cons] at hidx
    by_cases hb : b.id == pid
    · rw [if_pos hb] at hidx
      cases hidx
      rw [beq_iff_eq] at hb
      simp only [List.eraseIdx]
      rw [List.filter_cons, if_neg (by simp [hb])]
      symm
      rw [List.filter_eq_self]
      intro p hp
      simp only [Bool.not_eq_true']
      rw [beq_eq_false_iff_ne]
      intro hpe
      exact hnd.1 (hb ▸ hpe ▸ List.mem_map_of_mem Player.id hp)
    · rw [if_neg hb, List.findIdx?_succ] at hidx
      cases hi2 : rest.findIdx? (fun p => p.id == pid) with
      | none => rw [hi2] at hidx; simp at hidx
      | some j =>
        rw [hi2] at hidx
        simp only [Option.map_some', Option.some.injEq] at hidx
        subst hidx
        simp only [List.eraseIdx]
        rw [List.filter_cons, if_pos (by simpa using hb)]
        exact congrArg (b :: ·) (ih hnd.2 hi2)

/-! ## Claim C1 -/

/-- Concrete room used by the C1 witness. -/
def roomW1 : Room :=
  { id := "ABC123"
    ownerId := "p1"
    players := [⟨"p1", "Alice", "s1"⟩, ⟨"p2", "Bob", "s2"⟩]
    gameMode := .custom
    presetCategory := none
    gameState := .playing
    assignments := [⟨"p1", "cat", some "p2"⟩, ⟨"p2", "dog", some "p1"⟩]
    pairings := some [("p1", "p2"), ("p2", "p1")]
    roundNumber := 1 }

/-- C1: for every room and every player id P present in the room, the entry
for P in getPlayerView room P has an absent assignedItem even when an
assignment record for P exists; every other player's entry carries that
player's assigned item once assigned; and each entry flags isYou exactly for
the viewer and isOwner exactly for the owner.  (The per-target uniqueness of
assignments, an invariant stated by the spec's data model, is the hypothesis
making "that player's assigned item" well defined.) -/
theorem getPlayerView_redacts_viewer (room : Room) (P : String)
    (hmem : P ∈ room.players.map Player.id)
    (hA : (room.assignments.map PlayerAssignment.playerId).Nodup) :
    (GameLogic.getPlayerView room P).players.length = room.players.length ∧
    (∃ e ∈ (GameLogic.getPlayerView room P).players, e.id = P) ∧
    (∀ i, (hi : i < room.players.length) →
      (hv : i < (GameLogic.getPlayerView room P).players.length) →
      (((GameLogic.getPlayerView room P).players.get ⟨i, hv⟩).id
        = (room.players.get ⟨i, hi⟩).id ∧
      ((GameLogic.getPlayerView room P).players.get ⟨i, hv⟩).isYou
        = ((room.players.get ⟨i, hi⟩).id == P) ∧
      ((GameLogic.getPlayerView room P).players.get ⟨i, hv⟩).isOwner
        = (room.ownerId == (room.players.get ⟨i, hi⟩).id) ∧
      ((room.players.get ⟨i, hi⟩).id = P →
        ((GameLogic.getPlayerView room P).players.get ⟨i, hv⟩).assignedItem = none) ∧
      ((room.players.get ⟨i, hi⟩).id ≠ P →
        ∀ a ∈ room.assignments, a.playerId = (room.players.get ⟨i, hi⟩).id →
          ((GameLogic.getPlayerView room P).players.get ⟨i, hv⟩).assignedItem
            = some a.assignedItem))) := by
  refine ⟨by simp [GameLogic.getPlayerView], ?_, ?_⟩
  · obtain ⟨p, hp, hpid⟩ := List.mem_map.mp hmem
    refine ⟨_, List.mem_map_of_mem _ hp, hpid⟩
  · intro i hi hv
    have hview : (GameLogic.getPlayerView room P).players.get ⟨i, hv⟩
        = { id := (room.players.get ⟨i, hi⟩).id
            name := (room.players.get ⟨i, hi⟩).name
            isYou := (room.players.get ⟨i, hi⟩).id == P
            isOwner := room.ownerId == (room.players.get ⟨i, hi⟩).id
            assignedItem := if (room.players.get ⟨i, hi⟩).id == P then none
              else (room.assignments.find?
                  (fun a => a.playerId == (room.players.get ⟨i, hi⟩).id)).map
                PlayerAssignment.assignedItem } := by
      simp [GameLogic.getPlayerView, List.get_eq_getElem, List.getElem_map]
    rw [hview]
    refine ⟨rfl, rfl, rfl, ?_, ?_⟩
    · intro hP
      show (if ((room.players.get ⟨i, hi⟩).id == P) = true then none
        else (room.assignments.find?
            (fun a => a.playerId == (room.players.get ⟨i, hi⟩).id)).map
          PlayerAssignment.assignedItem) = none
      rw [if_pos (by simpa using hP)]
    · intro hP a ha hpa
      have hfind : room.assignments.find?
          (fun x => x.playerId == (room.players.get ⟨i, hi⟩).id) = some a := by
        have hu := find?_assignment_unique hA ha
        rwa [hpa] at hu
      show (if ((room.players.get ⟨i, hi⟩).id == P) = true then none
        else (room.assignments.find?
            (fun a => a.playerId == (room.players.get ⟨i, hi⟩).id)).map
          PlayerAssignment.assignedItem) = some a.assignedItem
      rw [if_neg (by simpa using hP), hfind, Option.map_some']

/-- Witness for C1 at a concrete two-player room: the viewer's own entry is
redacted although their assignment exists, and the other entry shows the
assigned item. -/
theorem getPlayerView_redacts_viewer_witness :
    ((GameLogic.getPlayerView roomW1 "p1").players.get ⟨0, by decide⟩).assignedItem = none ∧
    ((GameLogic.getPlayerView roomW1 "p1").players.get ⟨1, by decide⟩).assignedItem
      = some "dog" := by
  have h := getPlayerView_redacts_viewer roomW1 "p1" (by decide) (by decide)
  refine ⟨(h.2.2 0 (by decide) (by decide)).2.2.2.1 (by decide), ?_⟩
  exact (h.2.2 1 (by decide) (by decide)).2.2.2.2 (by decide)
    ⟨"p2", "dog", some "p1"⟩ (by decide) (by decide)

/-! ## Claim C7 -/

/-- C7: removePlayer removes exactly the named player; when the removed
player owned the room and players remain, ownership passes to the first
remaining player in original list order; when nobody remains, the room is
deleted within the same operation, so a get of the code afterwards is
absent. -/
theorem removePlayer_spec (rooms : List (String × Room)) (roomId playerId : String)
    (room : Room) (hget : mapGet rooms roomId = some room)
    (hkeys : (rooms.map Prod.fst).Nodup)
    (hnd : (room.players.map Player.id).Nodup)
    (hmem : playerId ∈ room.players.map Player.id) :
    ∃ rooms', RoomManager.removePlayer rooms roomId playerId = .ok rooms' ∧
      ((room.players.filter (fun p => !(p.id == playerId)) = [] →
          mapGet rooms' roomId = none) ∧
       (∀ p0 rest, room.players.filter (fun p => !(p.id == playerId)) = p0 :: rest →
          mapGet rooms' roomId = some { room with
            players := p0 :: rest
            ownerId := if room.ownerId == playerId then p0.id else room.ownerId })) := by
  obtain ⟨idx, hidx⟩ := findIdx?_isSome_of_mem hmem
  have herase := eraseIdx_findIdx?_eq_filter hnd hidx
  unfold RoomManager.removePlayer
  rw [hget]
  simp only []
  rw [hidx]
  simp only []
  rw [herase]
  cases hfil : room.players.filter (fun p => !(p.id == playerId)) with
  | nil =>
    refine ⟨mapDelete rooms roomId, rfl, ?_, ?_⟩
    · intro _
      exact mapGet_mapDelete_self rooms roomId hkeys
    · intro p0 rest hcontra
      cases hcontra
  | cons p0 rest =>
    refine ⟨_, rfl, ?_, ?_⟩
    · intro hcontra
      cases hcontra
    · intro q0 qrest hq
      cases hq
      exact mapGet_mapSet_self rooms roomId _

/-- Concrete three-player room of the C7 witness (the spec's example:
owner A with players A, B, C). -/
def roomW7 : Room :=
  { id := "ROOM01"
    ownerId := "a"
    players := [⟨"a", "Ann", "s1"⟩, ⟨"b", "Ben", "s2"⟩, ⟨"c", "Cem", "s3"⟩]
    gameMode := .preset
    presetCategory := some .animals
    gameState := .waiting
    assignments := []
    pairings := none
    roundNumber := 1 }

/-- Single-player room of the C7 witness's deletion half. -/
def roomW7b : Room :=
  { id := "ROOM02"
    ownerId := "z"
    players := [⟨"z", "Zoe", "s9"⟩]
    gameMode := .custom
    presetCategory := none
    gameState := .waiting
    assignments := []
    pairings := none
    roundNumber := 1 }

/-- Witness for C7: removing the owner of [A, B, C] and removing the last
player of a singleton room both satisfy the theorem's hypotheses. -/
theorem removePlayer_spec_witness :
    (∃ rooms', RoomManager.removePlayer [("ROOM01", roomW7)] "ROOM01" "a" = .ok rooms' ∧
      (roomW7.players.filter (fun p => !(p.id == "a")) = [] →
          mapGet rooms' "ROOM01" = none) ∧
      (∀ p0 rest, roomW7.players.filter (fun p => !(p.id == "a")) = p0 :: rest →
          mapGet rooms' "ROOM01" = some { roomW7 with
            players := p0 :: rest
            ownerId := if roomW7.ownerId == "a" then p0.id else roomW7.ownerId })) ∧
    (∃ rooms', RoomManager.removePlayer [("ROOM02", roomW7b)] "ROOM02" "z" = .ok rooms' ∧
      (roomW7b.players.filter (fun p => !(p.id == "z")) = [] →
          mapGet rooms' "ROOM02" = none) ∧
      (∀ p0 rest, roomW7b.players.filter (fun p => !(p.id == "z")) = p0 :: rest →
          mapGet rooms' "ROOM02" = some { roomW7b with
            players := p0 :: rest
            ownerId := if roomW7b.ownerId == "z" then p0.id else roomW7b.ownerId })) := by
  constructor
  · exact removePlayer_spec [("ROOM01", roomW7)] "ROOM01" "a" roomW7
      (by decide) (by decide) (by decide) (by decide)
  · exact removePlayer_spec [("ROOM02", roomW7b)] "ROOM02" "z" roomW7b
      (by decide) (by decide) (by decide) (by decide)

/-! ## Claims C3 and C9 (start-new-round) -/

/-- Concrete custom-mode room in state finished with a stored pairing, used
to test the C3 claim. -/
def roomX3 : Room :=
  { id := "ABC123"
    ownerId := "p1"
    players := [⟨"p1", "Alice", "s1"⟩, ⟨"p2", "Bob", "s2"⟩]
    gameMode := .custom
    presetCategory := none
    gameState := .finished
    assignments := [⟨"p1", "cat", some "p2"⟩, ⟨"p2", "dog", some "p1"⟩]
    pairings := some [("p1", "p2"), ("p2", "p1")]
    roundNumber := 3 }

def worldX3 : World :=
  { rooms := [("ABC123", roomX3)], pending := [], liveTimers := [], nextTimer := 0 }

/-- C3 counterexample: an owner start-new-round from finished succeeds
(round 3 becomes 4, assignments cleared, state waiting) and yet the stored
Pairing is still present on the room, contradicting the claim that the
pairing is discarded. -/
theorem startNewRound_keeps_pairings_cex :
    (mapGet (startNewRoundHandler worldX3 "s1" "ABC123").rooms "ABC123").map Room.pairings
      = some (some [("p1", "p2"), ("p2", "p1")]) ∧
    (mapGet (startNewRoundHandler worldX3 "s1" "ABC123").rooms "ABC123").map Room.gameState
      = some GameState.waiting ∧
    (mapGet (startNewRoundHandler worldX3 "s1" "ABC123").rooms "ABC123").map Room.roundNumber
      = some 4 ∧
    (mapGet (startNewRoundHandler worldX3 "s1" "ABC123").rooms "ABC123").map Room.assignments
      = some [] := by
  decide

/-- C3 amended: after a successful owner start-new-round, the round counter
has incremented by exactly 1, the assignments list is empty, and the game
state is waiting; the stored Pairing however is retained unchanged on the
room (it is only replaced when custom mode next computes pairings), and all
other fields are untouched. -/
theorem startNewRound_resets_round (w : World) (sockId roomId : String)
    (room : Room) (player : Player)
    (hvalid : isValidRoomId roomId = true)
    (hget : mapGet w.rooms roomId = some room)
    (hfind : room.players.find? (fun p => p.socketId == sockId) = some player)
    (howner : room.ownerId == player.id) :
    mapGet (startNewRoundHandler w sockId roomId).rooms roomId = some
      { room with roundNumber := room.roundNumber + 1
                  assignments := []
                  gameState := .waiting } := by
  unfold startNewRoundHandler
  rw [if_neg (by simp [hvalid])]
  rw [hget]
  simp only []
  rw [hfind]
  simp only []
  rw [if_neg (by simp [howner])]
  exact mapGet_mapSet_self w.rooms roomId _

/-- Witness for the amended C3 at the concrete finished room. -/
theorem startNewRound_resets_round_witness :
    mapGet (startNewRoundHandler worldX3 "s1" "ABC123").rooms "ABC123" = some
      { roomX3 with roundNumber := roomX3.roundNumber + 1
                    assignments := []
                    gameState := .waiting } :=
  startNewRound_resets_round worldX3 "s1" "ABC123" roomX3 ⟨"p1", "Alice", "s1"⟩
    (by decide) (by decide) (by decide) (by decide)

/-- Concrete preset-mode room in state playing, used to test the C9 claim. -/
def roomX9 : Room :=
  { id := "XYZ789"
    ownerId := "q1"
    players := [⟨"q1", "Ana", "t1"⟩, ⟨"q2", "Bo", "t2"⟩]
    gameMode := .preset
    presetCategory := some .foods
    gameState := .playing
    assignments := [⟨"q1", "pizza", none⟩, ⟨"q2", "sushi", none⟩]
    pairings := none
    roundNumber := 1 }

def worldX9 : World :=
  { rooms := [("XYZ789", roomX9)], pending := [], liveTimers := [], nextTimer := 0 }

/-- C9 counterexample: a start-new-round request while the room is playing
(not finished) does not fail with a precondition error; it mutates the room
(round 1 becomes 2, state becomes waiting, assignments cleared), so the
claim that it fails and leaves the room unchanged is false. -/
theorem startNewRound_succeeds_midgame_cex :
    (mapGet (startNewRoundHandler worldX9 "t1" "XYZ789").rooms "XYZ789").map Room.roundNumber
      = some 2 ∧
    (mapGet (startNewRoundHandler worldX9 "t1" "XYZ789").rooms "XYZ789").map Room.gameState
      = some GameState.waiting ∧
    (mapGet (startNewRoundHandler worldX9 "t1" "XYZ789").rooms "XYZ789").map Room.assignments
      = some [] := by
  decide

/-- C9 amended: the start-new-round handler performs no game-state check at
all: an owner request succeeds from any state, including every state other
than finished, performing the round reset; in particular the room does not
stay unchanged, so there is no wrong-game-state precondition error. -/
theorem startNewRound_no_state_gate (w : World) (sockId roomId : String)
    (room : Room) (player : Player)
    (hvalid : isValidRoomId roomId = true)
    (hget : mapGet w.rooms roomId = some room)
    (hfind : room.players.find? (fun p => p.socketId == sockId) = some player)
    (howner : room.ownerId == player.id)
    (_hstate : room.gameState ≠ .finished) :
    mapGet (startNewRoundHandler w sockId roomId).rooms roomId = some
      { room with roundNumber := room.roundNumber + 1
                  assignments := []
                  gameState := .waiting } ∧
    mapGet (startNewRoundHandler w sockId roomId).rooms roomId ≠ some room := by
  have hreset : mapGet (startNewRoundHandler w sockId roomId).rooms roomId = some
      { room with roundNumber := room.roundNumber + 1
                  assignments := []
                  gameState := .waiting } := by
    unfold startNewRoundHandler
    rw [if_neg (by simp [hvalid])]
    rw [hget]
    simp only []
    rw [hfind]
    simp only []
    rw [if_neg (by simp [howner])]
    exact mapGet_mapSet_self w.rooms roomId _
  refine ⟨hreset, ?_⟩
  rw [hreset]
  intro hcontra
  have hround := congrArg (fun o => (Option.map Room.roundNumber o).getD 0) hcontra
  simp at hround

/-- Witness for the amended C9 at the concrete playing room. -/
theorem startNewRound_no_state_gate_witness :
    (mapGet (startNewRoundHandler worldX9 "t1" "XYZ789").rooms "XYZ789" = some
      { roomX9 with roundNumber := roomX9.roundNumber + 1
                    assignments := []
                    gameState := .waiting } ∧
    mapGet (startNewRoundHandler worldX9 "t1" "XYZ789").rooms "XYZ789" ≠ some roomX9) :=
  startNewRound_no_state_gate worldX9 "t1" "XYZ789" roomX9 ⟨"q1", "Ana", "t1"⟩
    (by decide) (by decide) (by decide) (by decide) (by decide)

/-! ## Claim C4 (disconnect during waiting or playing) -/

theorem disconnectRoomStep_skip {w : World} {s : String} {r : Room}
    (h : ∀ p ∈ r.players, p.socketId ≠ s) : disconnectRoomStep w s r = w := by
  unfold disconnectRoomStep
  have hnone : r.players.find? (fun p => p.socketId == s) = none :=
    List.find?_eq_none.mpr (fun p hp => by simp [h p hp])
  rw [hnone]

theorem foldl_disconnect_skip {s : String} : ∀ (l : List Room) (w : World),
    (∀ r ∈ l, ∀ p ∈ r.players, p.socketId ≠ s) →
    List.foldl (fun acc room => disconnectRoomStep acc s room) w l = w := by
  intro l
  induction l with
  | nil => intro w h; rfl
  | cons r rest ih =>
    intro w h
    simp only [List.foldl_cons]
    rw [disconnectRoomStep_skip (fun p hp => h r (List.mem_cons_self r rest) p hp)]
    exact ih w (fun r' hr' => h r' (List.mem_cons_of_mem r hr'))

theorem disconnectRoomStep_grace {w : World} {s : String} {room : Room} {player : Player}
    (hfind : room.players.find? (fun p => p.socketId == s) = some player)
    (hstate : room.gameState = .waiting ∨ room.gameState = .playing) :
    disconnectRoomStep w s room =
      addPendingDisconnect
        { w with nextTimer := w.nextTimer + 1, liveTimers := w.liveTimers ++ [w.nextTimer] }
        s { roomId := room.id, playerId := player.id, timeout := w.nextTimer } := by
  unfold disconnectRoomStep
  rw [hfind]
  simp only []
  rcases hstate with h | h <;> rw [h]

theorem addPendingDisconnect_get_self (w : World) (s : String) (pd : PendingDisconnect) :
    mapGet (addPendingDisconnect w s pd).pending s = some pd := by
  unfold addPendingDisconnect
  exact mapGet_mapSet_self _ s pd

theorem addPendingDisconnect_liveTimers_mem {w : World} {s : String}
    {pd : PendingDisconnect} {t : Nat} (ht : t ∈ w.liveTimers)
    (hfresh : ∀ e ∈ w.pending, e.2.timeout ≠ t) :
    t ∈ (addPendingDisconnect w s pd).liveTimers := by
  unfold addPendingDisconnect clearTimer
  split
  · split
    · exact ht
    next firstKey oldEntry tail heq =>
      refine List.mem_filter.mpr ⟨ht, ?_⟩
      have hmem : (firstKey, oldEntry) ∈ w.pending := by
        rw [heq]
        exact List.mem_cons_self _ _
      simp only [Bool.not_eq_true', beq_eq_false_iff_ne, ne_eq]
      intro hcontra
      exact hfresh (firstKey, oldEntry) hmem hcontra.symm
  · exact ht

/-- C4 amended: for a room in waiting or playing, a transport disconnect of
a member's connection removes nothing: the whole room table is unchanged, so
the player stays a full member and their connection handle still holds the
dropped connection's identity (the source never empties it; the rejoin path
relies on it).  A grace-period entry keyed by the dropped connection,
carrying the room code and player id and the freshly armed timer, is
recorded in the pending-disconnect table. -/
theorem disconnect_grace_period (w : World) (sockId : String) (A B : List Room)
    (room : Room) (player : Player)
    (hsplit : w.rooms.map Prod.snd = A ++ room :: B)
    (hA : ∀ r ∈ A, ∀ p ∈ r.players, p.socketId ≠ sockId)
    (hB : ∀ r ∈ B, ∀ p ∈ r.players, p.socketId ≠ sockId)
    (hfind : room.players.find? (fun p => p.socketId == sockId) = some player)
    (hstate : room.gameState = .waiting ∨ room.gameState = .playing)
    (hfresh : ∀ e ∈ w.pending, e.2.timeout ≠ w.nextTimer) :
    (disconnectHandler w sockId).rooms = w.rooms ∧
    mapGet (disconnectHandler w sockId).pending sockId
      = some { roomId := room.id, playerId := player.id, timeout := w.nextTimer } ∧
    w.nextTimer ∈ (disconnectHandler w sockId).liveTimers ∧
    player.socketId = sockId ∧ player ∈ room.players := by
  have hstep := disconnectRoomStep_grace (w := w) hfind hstate
  have hhandler : disconnectHandler w sockId =
      addPendingDisconnect
        { w with nextTimer := w.nextTimer + 1, liveTimers := w.liveTimers ++ [w.nextTimer] }
        sockId { roomId := room.id, playerId := player.id, timeout := w.nextTimer } := by
    unfold disconnectHandler
    rw [hsplit, List.foldl_append, foldl_disconnect_skip A w hA]
    simp only [List.foldl_cons]
    rw [hstep, foldl_disconnect_skip B _ hB]
  refine ⟨?_, ?_, ?_, ?_, ?_⟩
  · rw [hhandler, addPendingDisconnect_rooms]
  · rw [hhandler]
    exact addPendingDisconnect_get_self _ _ _
  · rw [hhandler]
    refine addPendingDisconnect_liveTimers_mem (by simp) ?_
    exact hfresh
  · have := List.find?_some hfind
    simpa using this
  · exact List.mem_of_find?_eq_some hfind

/-- Concrete waiting room used by the C4 counterexample and witness. -/
def roomX4 : Room :=
  { id := "DEF456"
    ownerId := "p1"
    players := [⟨"p1", "Pia", "s1"⟩, ⟨"p2", "Bob", "s2"⟩]
    gameMode := .preset
    presetCategory := some .movies
    gameState := .waiting
    assignments := []
    pairings := none
    roundNumber := 1 }

def worldX4 : World :=
  { rooms := [("DEF456", roomX4)], pending := [], liveTimers := [], nextTimer := 0 }

/-- C4 counterexample: after the disconnect of connection s1 during waiting,
the stored player's connection handle still reads s1 — it is not emptied —
although the grace entry was recorded; the claim's "now-empty connection
handle" is false on the code. -/
theorem disconnect_keeps_socket_handle_cex :
    (mapGet (disconnectHandler worldX4 "s1").rooms "DEF456").map
        (fun r => r.players.map Player.socketId) = some ["s1", "s2"] ∧
    mapGet (disconnectHandler worldX4 "s1").pending "s1"
      = some { roomId := "DEF456", playerId := "p1", timeout := 0 } ∧
    ("s1" : String) ≠ "" := by
  decide

/-- Witness for the amended C4 at the concrete waiting room. -/
theorem disconnect_grace_period_witness :
    ((disconnectHandler worldX4 "s1").rooms = worldX4.rooms ∧
     mapGet (disconnectHandler worldX4 "s1").pending "s1"
       = some { roomId := roomX4.id, playerId := "p1", timeout := worldX4.nextTimer } ∧
     worldX4.nextTimer ∈ (disconnectHandler worldX4 "s1").liveTimers ∧
     (Player.socketId ⟨"p1", "Pia", "s1"⟩) = "s1" ∧
     (⟨"p1", "Pia", "s1"⟩ : Player) ∈ roomX4.players) :=
  disconnect_grace_period worldX4 "s1" [] [] roomX4 ⟨"p1", "Pia", "s1"⟩
    (by decide) (by simp) (by simp) (by decide) (Or.inl (by decide))
    (by intro e he; simp [worldX4] at he)

/-! ## Claim C5 (rejoin) -/

/-- The rejoin handler's roster update: the player at the found index gets
the new socket id (statement-side abbreviation of the handler's update). -/
def rebindSocket (players : List Player) (idx : Nat) (sockId : String) : List Player :=
  players.set idx { players.getD idx ⟨"", "", ""⟩ with socketId := sockId }

/-- C5: a rejoin carrying a room code and a player id that still exists in
that room rebinds the player's connection handle to the new connection,
discards the pending grace entry keyed by the previous connection and
cancels its timer (the timer leaves the live list, so no fire transition for
it is possible any more and the player is never removed by it), leaves the
player in the room, and resends the personalized view exactly when the
room's state is not waiting. -/
theorem rejoin_rebinds_and_cancels (w : World) (sockId roomId playerId : String)
    (room : Room) (idx : Nat) (pd : PendingDisconnect)
    (hvalid : isValidRoomId roomId = true)
    (hget : mapGet w.rooms roomId = some room)
    (hidx : room.players.findIdx? (fun p => p.id == playerId) = some idx)
    (hold : (room.players.getD idx ⟨"", "", ""⟩).socketId ≠ "")
    (hpend : mapGet w.pending (room.players.getD idx ⟨"", "", ""⟩).socketId = some pd)
    (hkeys : (w.pending.map Prod.fst).Nodup) :
    mapGet (rejoinRoomHandler w sockId roomId playerId).world.rooms roomId
      = some { room with players := rebindSocket room.players idx sockId } ∧
    mapGet (rejoinRoomHandler w sockId roomId playerId).world.pending
      (room.players.getD idx ⟨"", "", ""⟩).socketId = none ∧
    pd.timeout ∉ (rejoinRoomHandler w sockId roomId playerId).world.liveTimers ∧
    (∃ q ∈ rebindSocket room.players idx sockId, q.id = playerId ∧ q.socketId = sockId) ∧
    (room.gameState ≠ .waiting →
      (rejoinRoomHandler w sockId roomId playerId).resentView
        = some (GameLogic.getPlayerView
            { room with players := rebindSocket room.players idx sockId } playerId)) ∧
    (room.gameState = .waiting →
      (rejoinRoomHandler w sockId roomId playerId).resentView = none) := by
  have hmain : rejoinRoomHandler w sockId roomId playerId =
      ⟨{ w with
          rooms := mapSet w.rooms roomId
            { room with players := rebindSocket room.players idx sockId }
          pending := mapDelete w.pending (room.players.getD idx ⟨"", "", ""⟩).socketId
          liveTimers := w.liveTimers.filter (fun t => !(t == pd.timeout)) },
        if room.gameState == .waiting then none
        else some (GameLogic.getPlayerView
          { room with players := rebindSocket room.players idx sockId } playerId)⟩ := by
    unfold rejoinRoomHandler clearTimer rebindSocket
    rw [if_neg (by simp [hvalid]), hget]
    simp only []
    rw [hidx]
    simp only []
    rw [if_neg (by simpa using hold)]
    rw [hpend]
  rw [List.findIdx?_eq_some_iff_findIdx_eq] at hidx
  obtain ⟨hlt, hfidx⟩ := hidx
  refine ⟨?_, ?_, ?_, ?_, ?_, ?_⟩
  · rw [hmain]
    exact mapGet_mapSet_self _ _ _
  · rw [hmain]
    exact mapGet_mapDelete_self _ _ hkeys
  · rw [hmain]
    intro hcontra
    have hmem := (List.mem_filter.mp hcontra).2
    simp at hmem
  · have hsetlen : idx < (rebindSocket room.players idx sockId).length := by
      simpa [rebindSocket, List.length_set] using hlt
    refine ⟨{ room.players.getD idx ⟨"", "", ""⟩ with socketId := sockId }, ?_, ?_, ?_⟩
    · refine List.mem_iff_getElem.mpr ⟨idx, hsetlen, ?_⟩
      unfold rebindSocket
      simp [List.getElem_set]
    · have hw : room.players.findIdx (fun p => p.id == playerId) < room.players.length := by
        rw [hfidx]
        exact hlt
      have hp := @List.findIdx_getElem _ (fun p => p.id == playerId) room.players hw
      simp only [hfidx] at hp
      have hgetd : room.players.getD idx ⟨"", "", ""⟩ = room.players[idx] :=
        List.getD_eq_getElem _ _ hlt
      simp only [hgetd]
      simpa using hp
    · rfl
  · intro hstate
    rw [hmain]
    simp only []
    rw [if_neg (by simpa using hstate)]
  · intro hstate
    rw [hmain]
    simp only []
    rw [if_pos (by simpa using hstate)]

/-- Concrete mid-game room with a pending disconnect for the C5 witness. -/
def roomX5 : Room :=
  { id := "GHI789"
    ownerId := "p1"
    players := [⟨"p1", "Al", "s1"⟩, ⟨"p2", "Bo", "s2"⟩]
    gameMode := .custom
    presetCategory := none
    gameState := .playing
    assignments := [⟨"p1", "cat", some "p2"⟩, ⟨"p2", "dog", some "p1"⟩]
    pairings := some [("p1", "p2"), ("p2", "p1")]
    roundNumber := 1 }

def worldX5 : World :=
  { rooms := [("GHI789", roomX5)]
    pending := [("s1", ⟨"GHI789", "p1", 0⟩)]
    liveTimers := [0]
    nextTimer := 1 }

/-- Witness for C5: player p1, disconnected on socket s1 with a pending
grace timer, rejoins on socket s9 during playing. -/
theorem rejoin_rebinds_and_cancels_witness :
    (mapGet (rejoinRoomHandler worldX5 "s9" "GHI789" "p1").world.rooms "GHI789"
      = some { roomX5 with players := rebindSocket roomX5.players 0 "s9" } ∧
    mapGet (rejoinRoomHandler worldX5 "s9" "GHI789" "p1").world.pending
      (roomX5.players.getD 0 ⟨"", "", ""⟩).socketId = none ∧
    (0 : Nat) ∉ (rejoinRoomHandler worldX5 "s9" "GHI789" "p1").world.liveTimers ∧
    (∃ q ∈ rebindSocket roomX5.players 0 "s9", q.id = "p1" ∧ q.socketId = "s9") ∧
    (roomX5.gameState ≠ .waiting →
      (rejoinRoomHandler worldX5 "s9" "GHI789" "p1").resentView
        = some (GameLogic.getPlayerView
            { roomX5 with players := rebindSocket roomX5.players 0 "s9" } "p1")) ∧
    (roomX5.gameState = .waiting →
      (rejoinRoomHandler worldX5 "s9" "GHI789" "p1").resentView = none)) :=
  rejoin_rebinds_and_cancels worldX5 "s9" "GHI789" "p1" roomX5 0 ⟨"GHI789", "p1", 0⟩
    (by decide) (by decide) (by decide) (by decide) (by decide) (by decide)

/-! ## Claim C6 (grace-period timer firing) -/

theorem removePlayer_isOk {rooms : List (String × Room)} {rid pid : String} {room : Room}
    (hget : mapGet rooms rid = some room)
    (hmem : pid ∈ room.players.map Player.id) :
    ∃ rooms', RoomManager.removePlayer rooms rid pid = .ok rooms' := by
  obtain ⟨idx, hidx⟩ := findIdx?_isSome_of_mem hmem
  unfold RoomManager.removePlayer
  rw [hget]
  simp only []
  rw [hidx]
  simp only []
  cases he : room.players.eraseIdx idx with
  | nil => exact ⟨_, rfl⟩
  | cons p0 tail => exact ⟨_, rfl⟩

/-- C6: when the grace-period timer fires, the existence of the room and of
the player is re-checked at fire time; the player is removed through the
standard removal path only when both still exist, a fire after either has
vanished changes no room at all, and the timer's table entry is discarded in
every case; the fired timer leaves the live list, so a second fire of it is
impossible and a fire that finds the player already gone removes nobody. -/
theorem graceTimerFire_revalidates (w : World) (roomId playerId sockId : String) (t : Nat)
    (hkeys : (w.pending.map Prod.fst).Nodup) :
    mapGet (fireTimerCallback w roomId playerId sockId t).pending sockId = none ∧
    t ∉ (fireTimerCallback w roomId playerId sockId t).liveTimers ∧
    (∀ room, mapGet w.rooms roomId = some room →
      room.players.any (fun p => p.id == playerId) = true →
      ∃ rooms', RoomManager.removePlayer w.rooms roomId playerId = .ok rooms' ∧
        (fireTimerCallback w roomId playerId sockId t).rooms = rooms') ∧
    (mapGet w.rooms roomId = none →
      (fireTimerCallback w roomId playerId sockId t).rooms = w.rooms) ∧
    (∀ room, mapGet w.rooms roomId = some room →
      room.players.any (fun p => p.id == playerId) = false →
      (fireTimerCallback w roomId playerId sockId t).rooms = w.rooms) := by
  have hpend : (fireTimerCallback w roomId playerId sockId t).pending
      = mapDelete w.pending sockId := by
    unfold fireTimerCallback clearTimer removePlayerCaught
    simp only []
    split
    · rfl
    · split
      · split
        · rfl
        · rfl
      · rfl
  have hlive : (fireTimerCallback w roomId playerId sockId t).liveTimers
      = w.liveTimers.filter (fun u => !(u == t)) := by
    unfold fireTimerCallback clearTimer removePlayerCaught
    simp only []
    split
    · rfl
    · split
      · split
        · rfl
        · rfl
      · rfl
  refine ⟨?_, ?_, ?_, ?_, ?_⟩
  · rw [hpend]
    exact mapGet_mapDelete_self _ _ hkeys
  · rw [hlive]
    intro hc
    have hmem := (List.mem_filter.mp hc).2
    simp at hmem
  · intro room hget hany
    have hmem : playerId ∈ room.players.map Player.id := by
      obtain ⟨p, hp, hpe⟩ := List.any_eq_true.mp hany
      exact List.mem_map.mpr ⟨p, hp, by simpa using hpe⟩
    obtain ⟨rooms', hok⟩ := removePlayer_isOk hget hmem
    refine ⟨rooms', hok, ?_⟩
    unfold fireTimerCallback clearTimer removePlayerCaught
    simp only []
    rw [hget]
    simp only []
    rw [if_pos hany, hok]
  · intro hget
    unfold fireTimerCallback clearTimer
    simp only []
    rw [hget]
  · intro room hget hany
    unfold fireTimerCallback clearTimer
    simp only []
    rw [hget]
    simp only []
    rw [if_neg (by simp [hany])]

/-- Concrete playing room with a pending entry for the C6 witness. -/
def roomX6 : Room :=
  { id := "JKL012"
    ownerId := "p1"
    players := [⟨"p1", "Al", "s1"⟩, ⟨"p2", "Bo", "s2"⟩]
    gameMode := .preset
    presetCategory := some .countries
    gameState := .playing
    assignments := [⟨"p1", "Peru", none⟩, ⟨"p2", "Chad", none⟩]
    pairings := none
    roundNumber := 2 }

def worldX6 : World :=
  { rooms := [("JKL012", roomX6)]
    pending := [("s1", ⟨"JKL012", "p1", 0⟩)]
    liveTimers := [0]
    nextTimer := 1 }

/-- Witness for C6 at a concrete world where the timer armed for p1's old
socket fires while room and player still exist. -/
theorem graceTimerFire_revalidates_witness :
    (mapGet (fireTimerCallback worldX6 "JKL012" "p1" "s1" 0).pending "s1" = none ∧
    (0 : Nat) ∉ (fireTimerCallback worldX6 "JKL012" "p1" "s1" 0).liveTimers ∧
    (∀ room, mapGet worldX6.rooms "JKL012" = some room →
      room.players.any (fun p => p.id == "p1") = true →
      ∃ rooms', RoomManager.removePlayer worldX6.rooms "JKL012" "p1" = .ok rooms' ∧
        (fireTimerCallback worldX6 "JKL012" "p1" "s1" 0).rooms = rooms') ∧
    (mapGet worldX6.rooms "JKL012" = none →
      (fireTimerCallback worldX6 "JKL012" "p1" "s1" 0).rooms = worldX6.rooms) ∧
    (∀ room, mapGet worldX6.rooms "JKL012" = some room →
      room.players.any (fun p => p.id == "p1") = false →
      (fireTimerCallback worldX6 "JKL012" "p1" "s1" 0).rooms = worldX6.rooms)) :=
  graceTimerFire_revalidates worldX6 "JKL012" "p1" "s1" 0 (by decide)

/-! ## Claim C8 (assignPresetItems) -/

/-- C8: assignPresetItems fails with the configuration error when no preset
category is set; given a category, it fails with the insufficient-items
error exactly when the category's pool is smaller than the player count; and
otherwise it assigns exactly one item per player (the assignment targets are
a permutation of the roster) with no item given to two distinct players (the
assigned item names are pairwise distinct), for any shuffle outcomes.  The
pool is abstract (the preset data tables are static content); reading the
spec's "count-sized subset without replacement" as drawing from a pool of
pairwise-distinct item names gives the Nodup hypothesis on the pool. -/
theorem assignPresetItems_spec (presets : PresetCategory → List PresetItem) (room : Room)
    (shuffledPool : List PresetItem) (shuffledPlayers : List Player) :
    (room.presetCategory = none →
      GameLogic.assignPresetItems presets room shuffledPool shuffledPlayers
        = .error "Preset category not set") ∧
    (∀ cat, room.presetCategory = some cat →
      (presets cat).length < room.players.length →
      GameLogic.assignPresetItems presets room shuffledPool shuffledPlayers
        = .error "Not enough items for players") ∧
    (∀ cat, room.presetCategory = some cat →
      room.players.length ≤ (presets cat).length →
      shuffledPool.Perm (presets cat) →
      shuffledPlayers.Perm room.players →
      ((presets cat).map PresetItem.name).Nodup →
      ∃ room', GameLogic.assignPresetItems presets room shuffledPool shuffledPlayers
          = .ok room' ∧
        (room'.assignments.map PlayerAssignment.playerId).Perm
          (room.players.map Player.id) ∧
        (room'.assignments.map PlayerAssignment.assignedItem).Nodup ∧
        room'.assignments.length = room.players.length) := by
  refine ⟨?_, ?_, ?_⟩
  · intro h
    unfold GameLogic.assignPresetItems
    rw [h]
  · intro cat hcat hlt
    unfold GameLogic.assignPresetItems
    rw [hcat]
    simp only []
    rw [if_pos hlt]
  · intro cat hcat hle hpool hplayers hnames
    have hnotlt : ¬((presets cat).length < room.players.length) := not_lt.mpr hle
    have hpool_len : shuffledPool.length = (presets cat).length := hpool.length_eq
    have hpl_len : shuffledPlayers.length = room.players.length := hplayers.length_eq
    have hsel_len : (shuffledPool.take room.players.length).length = room.players.length := by
      rw [List.length_take, hpool_len]
      omega
    have hzip_fst : (shuffledPlayers.zip (shuffledPool.take room.players.length)).map
        Prod.fst = shuffledPlayers :=
      List.map_fst_zip _ _ (by omega)
    have hzip_snd : (shuffledPlayers.zip (shuffledPool.take room.players.length)).map
        Prod.snd = shuffledPool.take room.players.length :=
      List.map_snd_zip _ _ (by omega)
    refine ⟨{ room with assignments :=
        (shuffledPlayers.zip (shuffledPool.take room.players.length)).map (fun pi =>
          { playerId := pi.1.id, assignedItem := pi.2.name, assignedBy := none }) },
      ?_, ?_, ?_, ?_⟩
    · unfold GameLogic.assignPresetItems GameLogic.selectRandomItems
      rw [hcat]
      simp only []
      rw [if_neg hnotlt, if_neg hnotlt]
    · show ((((shuffledPlayers.zip (shuffledPool.take room.players.length)).map (fun pi =>
        ({ playerId := pi.1.id, assignedItem := pi.2.name,
           assignedBy := none } : PlayerAssignment))).map
          PlayerAssignment.playerId).Perm (room.players.map Player.id))
      rw [List.map_map]
      have hcomp : (PlayerAssignment.playerId ∘ fun pi : Player × PresetItem =>
          ({ playerId := pi.1.id, assignedItem := pi.2.name,
             assignedBy := none } : PlayerAssignment))
          = (Player.id ∘ Prod.fst) := rfl
      rw [hcomp, ← List.map_map, hzip_fst]
      exact hplayers.map Player.id
    · show ((((shuffledPlayers.zip (shuffledPool.take room.players.length)).map (fun pi =>
        ({ playerId := pi.1.id, assignedItem := pi.2.name,
           assignedBy := none } : PlayerAssignment))).map
          PlayerAssignment.assignedItem).Nodup)
      rw [List.map_map]
      have hcomp : (PlayerAssignment.assignedItem ∘ fun pi : Player × PresetItem =>
          ({ playerId := pi.1.id, assignedItem := pi.2.name,
             assignedBy := none } : PlayerAssignment))
          = (PresetItem.name ∘ Prod.snd) := rfl
      rw [hcomp, ← List.map_map, hzip_snd]
      have hshufN : (shuffledPool.map PresetItem.name).Nodup :=
        ((hpool.map PresetItem.name).nodup_iff).mpr hnames
      have hsub : ((shuffledPool.take room.players.length).map PresetItem.name).Sublist
          (shuffledPool.map PresetItem.name) :=
        (List.take_sublist _ _).map PresetItem.name
      exact hsub.nodup hshufN
    · show (((shuffledPlayers.zip (shuffledPool.take room.players.length)).map (fun pi =>
        ({ playerId := pi.1.id, assignedItem := pi.2.name,
           assignedBy := none } : PlayerAssignment))).length = room.players.length)
      rw [List.length_map, List.length_zip, hsel_len, hpl_len]
      omega

/-- Concrete preset table for the C8 witness. -/
def presetsW8 : PresetCategory → List PresetItem
  | .animals => [⟨"1", "Lion", none⟩, ⟨"2", "Wolf", none⟩, ⟨"3", "Bear", none⟩]
  | _ => []

/-- Concrete preset-mode room for the C8 witness. -/
def roomX8 : Room :=
  { id := "MNO345"
    ownerId := "p1"
    players := [⟨"p1", "Al", "s1"⟩, ⟨"p2", "Bo", "s2"⟩]
    gameMode := .preset
    presetCategory := some .animals
    gameState := .waiting
    assignments := []
    pairings := none
    roundNumber := 1 }

/-- Witness for C8: two players drawing from a three-item animal pool under
concrete shuffles. -/
theorem assignPresetItems_spec_witness :
    ∃ room', GameLogic.assignPresetItems presetsW8 roomX8
        [⟨"2", "Wolf", none⟩, ⟨"1", "Lion", none⟩, ⟨"3", "Bear", none⟩]
        [⟨"p2", "Bo", "s2"⟩, ⟨"p1", "Al", "s1"⟩] = .ok room' ∧
      (room'.assignments.map PlayerAssignment.playerId).Perm
        (roomX8.players.map Player.id) ∧
      (room'.assignments.map PlayerAssignment.assignedItem).Nodup ∧
      room'.assignments.length = roomX8.players.length :=
  (assignPresetItems_spec presetsW8 roomX8
      [⟨"2", "Wolf", none⟩, ⟨"1", "Lion", none⟩, ⟨"3", "Bear", none⟩]
      [⟨"p2", "Bo", "s2"⟩, ⟨"p1", "Al", "s1"⟩]).2.2 .animals rfl
    (by decide) (by decide) (by decide) (by decide)

/-! ## Claim C2 (pairing generation and validation) -/

theorem cyclicPairings_eq_zip (l : List String) :
    cyclicPairings l = l.zip (l.rotate 1) := by
  apply List.ext_getElem
  · simp [cyclicPairings, List.length_zip, List.length_rotate]
  · intro i h1 h2
    have hn : i < l.length := by simpa [cyclicPairings] using h1
    have hpos : 0 < l.length := by omega
    have hmod : (i + 1) % l.length < l.length := Nat.mod_lt _ hpos
    have e1 : l[i]? = some l[i] := List.getElem?_eq_getElem hn
    have e2 : l[(i + 1) % l.length]? = some l[(i + 1) % l.length] :=
      List.getElem?_eq_getElem hmod
    simp [cyclicPairings, List.getElem_zip, List.getElem_rotate, e1, e2]

theorem cyclicPairings_fst (l : List String) :
    (cyclicPairings l).map Prod.fst = l := by
  rw [cyclicPairings_eq_zip]
  exact List.map_fst_zip _ _ (by simp [List.length_rotate])

theorem cyclicPairings_snd (l : List String) :
    (cyclicPairings l).map Prod.snd = l.rotate 1 := by
  rw [cyclicPairings_eq_zip]
  exact List.map_snd_zip _ _ (by simp [List.length_rotate])

theorem cyclicPairings_no_fix {l : List String} (hnd : l.Nodup) (hlen : 2 ≤ l.length)
    {e : String × String} (he : e ∈ cyclicPairings l) : e.1 ≠ e.2 := by
  rw [cyclicPairings_eq_zip] at he
  obtain ⟨i, hi, hev⟩ := List.mem_iff_getElem.mp he
  have hn : i < l.length := by
    simpa [List.length_zip, List.length_rotate] using hi
  have hpos : 0 < l.length := by omega
  have hmod : (i + 1) % l.length < l.length := Nat.mod_lt _ hpos
  have hev1 : e.1 = l[i] := by
    rw [← hev]
    simp [List.getElem_zip]
  have hev2 : e.2 = l[(i + 1) % l.length] := by
    rw [← hev]
    simp [List.getElem_zip, List.getElem_rotate]
  rw [hev1, hev2]
  intro hcontra
  have hij : i = (i + 1) % l.length := (hnd.getElem_inj_iff).mp hcontra
  by_cases hend : i + 1 < l.length
  · rw [Nat.mod_eq_of_lt hend] at hij
    omega
  · have hilast : i + 1 = l.length := by omega
    rw [hilast, Nat.mod_self] at hij
    omega

theorem lookupVal_of_mem_keys {ps : List (String × String)} {k : String}
    (hk : k ∈ ps.map Prod.fst) :
    ∃ v, lookupVal ps k = some v ∧ (k, v) ∈ ps := by
  obtain ⟨e, he, he1⟩ := List.mem_map.mp hk
  have hsome : (ps.find? (fun x => x.1 == k)).isSome :=
    List.find?_isSome.mpr ⟨e, he, by simp [he1]⟩
  cases hf : ps.find? (fun x => x.1 == k) with
  | none => rw [hf] at hsome; cases hsome
  | some found =>
    have hfmem := List.mem_of_find?_eq_some hf
    have hfkey : found.1 = k := by simpa using List.find?_some hf
    refine ⟨found.2, by simp [lookupVal, hf], ?_⟩
    have : (k, found.2) = found := by
      rw [← hfkey]
    rw [this]
    exact hfmem

/-- C2 amended: for every list of at least 2 distinct nonempty player ids
and every shuffle outcome, generatePlayerPairings returns a mapping whose
keys and whose values are each a permutation of the input ids (every id
exactly one key and exactly one value), with no id mapped to itself; for
exactly 2 ids it is the mutual swap; for fewer than 2 ids it fails with the
insufficient-players error; and validatePairings accepts the generated
mapping.  Nonemptiness of the ids is needed because validatePairings tests
JS truthiness of the looked-up target: an empty-string id as a target is
falsy and rejected. -/
theorem generatePlayerPairings_spec :
    (∀ (playerIds shuffled : List String), playerIds.length < 2 →
      generatePlayerPairings playerIds shuffled
        = .error "Need at least 2 players for pairing") ∧
    (∀ (playerIds shuffled : List String),
      2 ≤ playerIds.length → playerIds.Nodup → "" ∉ playerIds →
      shuffled.Perm playerIds →
      ∃ ps, generatePlayerPairings playerIds shuffled = .ok ps ∧
        (ps.map Prod.fst).Perm playerIds ∧
        (ps.map Prod.snd).Perm playerIds ∧
        (∀ e ∈ ps, e.1 ≠ e.2) ∧
        (∀ x y, playerIds = [x, y] → ps = [(x, y), (y, x)]) ∧
        validatePairings ps playerIds = true) := by
  constructor
  · intro playerIds shuffled hlen
    rcases playerIds with _ | ⟨a, _ | ⟨b, rest⟩⟩
    · rfl
    · rfl
    · simp [List.length_cons] at hlen
      omega
  · intro playerIds shuffled hlen hnd hne hsh
    rcases playerIds with _ | ⟨a, _ | ⟨b, _ | ⟨c, rest⟩⟩⟩
    · simp at hlen
    · simp at hlen
    · -- exactly two ids
      have hab : a ≠ b := by
        rcases List.nodup_cons.mp hnd with ⟨ha, _⟩
        simpa using ha
      have hane : a ≠ "" := by
        intro h
        exact hne (by rw [← h]; exact List.mem_cons_self a [b])
      have hbne : b ≠ "" := by
        intro h
        exact hne (by rw [← h]; exact List.mem_cons_of_mem a (List.mem_cons_self b []))
      refine ⟨[(a, b), (b, a)], rfl, ?_, ?_, ?_, ?_, ?_⟩
      · have hm : [(a, b), (b, a)].map Prod.fst = [a, b] := rfl
        rw [hm]
      · have hm : [(a, b), (b, a)].map Prod.snd = [b, a] := rfl
        rw [hm]
        exact List.Perm.swap a b []
      · intro e he
        rcases List.mem_cons.mp he with h | h
        · rw [h]
          simpa using hab
        · rw [List.mem_singleton.mp h]
          simpa using hab.symm
      · intro x y hxy
        injection hxy with h1 hrest
        injection hrest with h2 hnil
        subst h1
        subst h2
        rfl
      · have h1 : (a == b) = false := by simp [hab]
        have h2 : (b == a) = false := by simp [Ne.symm hab]
        have h3 : (b == "") = false := by simp [hbne]
        have h4 : (a == "") = false := by simp [hane]
        simp [validatePairings, lookupVal, truthyStr, List.find?, List.count_cons,
          h1, h2, h3, h4]
        exact ⟨hab, Ne.symm hab⟩
    · -- three or more ids
      have hgen : generatePlayerPairings (a :: b :: c :: rest) shuffled
          = .ok (cyclicPairings shuffled) := rfl
      have hndS : shuffled.Nodup := (hsh.nodup_iff).mpr hnd
      have hlenS : shuffled.length = (a :: b :: c :: rest).length := hsh.length_eq
      have h2S : 2 ≤ shuffled.length := by
        rw [hlenS]
        simp [List.length_cons]
      have hkeys : (cyclicPairings shuffled).map Prod.fst = shuffled :=
        cyclicPairings_fst _
      have hvals : (cyclicPairings shuffled).map Prod.snd = shuffled.rotate 1 :=
        cyclicPairings_snd _
      refine ⟨cyclicPairings shuffled, hgen, ?_, ?_, ?_, ?_, ?_⟩
      · rw [hkeys]
        exact hsh
      · rw [hvals]
        exact (List.rotate_perm shuffled 1).trans hsh
      · intro e he
        exact cyclicPairings_no_fix hndS h2S he
      · intro x y hxy
        simp at hxy
      · have hlenps : (cyclicPairings shuffled).length = shuffled.length := by
          have hc := congrArg List.length hkeys
          simpa using hc
        have hvperm : (shuffled.rotate 1).Perm (a :: b :: c :: rest) :=
          (List.rotate_perm shuffled 1).trans hsh
        have hvnodup : (shuffled.rotate 1).Nodup :=
          ((List.rotate_perm shuffled 1).nodup_iff).mpr hndS
        unfold validatePairings
        rw [Bool.and_eq_true, Bool.and_eq_true, Bool.and_eq_true, Bool.and_eq_true]
        refine ⟨⟨⟨⟨?_, ?_⟩, ?_⟩, ?_⟩, ?_⟩
        · rw [List.all_eq_true]
          intro id hid
          have hidS : id ∈ shuffled := (hsh.mem_iff).mpr hid
          rw [← hkeys] at hidS
          obtain ⟨v, hvl, hvm⟩ := lookupVal_of_mem_keys hidS
          have hvvals : v ∈ (cyclicPairings shuffled).map Prod.snd :=
            List.mem_map.mpr ⟨(id, v), hvm, rfl⟩
          rw [hvals] at hvvals
          have hvin : v ∈ (a :: b :: c :: rest) := (hvperm.mem_iff).mp hvvals
          have hvne : v ≠ "" := by
            intro h
            exact hne (h ▸ hvin)
          simp [hvl, truthyStr, hvne]
        · simp [hlenps, hlenS]
        · rw [List.all_eq_true]
          intro e he
          simpa using cyclicPairings_no_fix hndS h2S he
        · rw [List.all_eq_true]
          intro e he
          have hvvals : e.2 ∈ (cyclicPairings shuffled).map Prod.snd :=
            List.mem_map.mpr ⟨e, he, rfl⟩
          rw [hvals] at hvvals
          have hvin : e.2 ∈ (a :: b :: c :: rest) := (hvperm.mem_iff).mp hvvals
          simpa using hvin
        · rw [List.all_eq_true]
          intro t ht
          rw [hvals] at ht
          have hcount := List.count_eq_one_of_mem hvnodup ht
          rw [hvals]
          simpa using hcount

/-- C2 counterexample: the empty string is a perfectly distinct player id,
and with ids ["", "x"] the generator succeeds and produces the mutual swap,
yet validatePairings rejects its own generator's output, because the check
on the entry of "x" sees the falsy empty-string target.  The original
claim's "validatePairings accepts the generated mapping for every shuffle
outcome" is therefore false for arbitrary distinct ids. -/
theorem validatePairings_rejects_empty_id_cex :
    generatePlayerPairings ["", "x"] ["", "x"] = .ok [("", "x"), ("x", "")] ∧
    validatePairings [("", "x"), ("x", "")] ["", "x"] = false ∧
    (["", "x"] : List String).Nodup ∧
    2 ≤ (["", "x"] : List String).length :=
  ⟨rfl, by decide, by decide, by decide⟩

/-- Witness for the amended C2 on ids [a, b, c] with a concrete shuffle. -/
theorem generatePlayerPairings_spec_witness :
    ∃ ps, generatePlayerPairings ["a", "b", "c"] ["b", "c", "a"] = .ok ps ∧
      (ps.map Prod.fst).Perm ["a", "b", "c"] ∧
      (ps.map Prod.snd).Perm ["a", "b", "c"] ∧
      (∀ e ∈ ps, e.1 ≠ e.2) ∧
      (∀ x y, (["a", "b", "c"] : List String) = [x, y] → ps = [(x, y), (y, x)]) ∧
      validatePairings ps ["a", "b", "c"] = true :=
  generatePlayerPairings_spec.2 ["a", "b", "c"] ["b", "c", "a"]
    (by decide) (by decide) (by decide) (by decide)

/-! ## Claim C10 (join gate and capacity invariant) -/

/-- C10: a join-room request is accepted only while the room is waiting and
holds fewer than MAX_PLAYERS = 20 players — in any other case the handler
leaves the world untouched, so a roster never grows through join-room after
a round has started; and consequently, by induction over every reachable
world of the transition system, no room ever holds more than 20 players. -/
theorem joinRoom_capacity_invariant :
    (∀ (w : World) (sockId roomId playerName playerId : String) (room : Room),
      mapGet w.rooms roomId = some room →
      (room.gameState ≠ .waiting ∨ MAX_PLAYERS ≤ room.players.length) →
      joinRoomHandler w sockId roomId playerName playerId = w) ∧
    (∀ w : World, Reachable w → ∀ e ∈ w.rooms, e.2.players.length ≤ MAX_PLAYERS) := by
  constructor
  · intro w sockId roomId playerName playerId room hget hrej
    unfold joinRoomHandler
    split
    · rfl
    · split
      · rfl
      · rw [hget]
        simp only []
        rcases hrej with h | h
        · rw [if_pos (by simpa using h)]
        · by_cases hw : room.gameState = .waiting
          · rw [if_neg (by simpa using hw), if_pos h]
          · rw [if_pos (by simpa using hw)]
  · intro w hreach
    exact roomsOK_reachable hreach

/-- Concrete mid-game room used by the C10 witness. -/
def roomX10 : Room :=
  { id := "PQR678"
    ownerId := "p1"
    players := [⟨"p1", "Al", "s1"⟩, ⟨"p2", "Bo", "s2"⟩]
    gameMode := .preset
    presetCategory := some .foods
    gameState := .playing
    assignments := [⟨"p1", "taco", none⟩, ⟨"p2", "kale", none⟩]
    pairings := none
    roundNumber := 1 }

def worldX10 : World :=
  { rooms := [("PQR678", roomX10)], pending := [], liveTimers := [], nextTimer := 0 }

/-- Witness for C10: a join into a playing room is a no-op, and the world
reached by creating one room satisfies the capacity bound. -/
theorem joinRoom_capacity_invariant_witness :
    joinRoomHandler worldX10 "s9" "PQR678" "Zed" "p9" = worldX10 ∧
    (∀ e ∈ (createRoomHandler World.init "s1" "p1" "Ann" "ABCDEF" .custom none).rooms,
      e.2.players.length ≤ MAX_PLAYERS) := by
  constructor
  · exact joinRoom_capacity_invariant.1 worldX10 "s9" "PQR678" "Zed" "p9" roomX10
      (by decide) (Or.inl (by decide))
  · refine joinRoom_capacity_invariant.2 _ ?_
    refine Relation.ReflTransGen.single ?_
    exact Step.createRoom World.init "s1" "p1" "Ann" "ABCDEF" .custom none
      (by decide) (by decide) (by intro e he; simp [World.init] at he)
